import Mathlib

/-!
Verification development for the `gntsldr/scripts` repository.

The repository contains three stand-alone Python scripts:
  * `movies/get_movies.py`    — fetches the Radarr movie list, writes JSON + CSV;
  * `tvshows/get_tvshows.py`  — fetches the Sonarr series list, writes JSON + CSV;
  * `music/deezer/get_deezer_artist_ids.py` — pages through the Deezer
    favorite-artists endpoint and writes the artist IDs to a CSV file.

This file gives a shallow embedding of the data model and the operations of
those scripts, and proves (or refutes) the specification claims about them.
HTTP traffic is modelled by an explicit response value (for the single-request
scripts) or a function from request offsets to responses (for the paginated
Deezer fetcher); the unbounded `while True` loop is modelled with explicit
fuel, and the theorems show the results are fuel-independent whenever the
upstream eventually stops the pagination.
-/

set_option maxRecDepth 10000

namespace Scripts

/-- Flat JSON-like scalar values, as consumed by the scripts.  The scripts
only ever project the `title`, `year` and external-ID fields of the records
they fetch, so nested arrays/objects never need to be inspected. -/
inductive JVal where
  | null
  | bool (b : Bool)
  | int (n : Int)
  | str (s : String)
deriving DecidableEq

/-- A fetched record: a Python `dict` with string keys, embedded as an
association list (first binding wins, as in a dict there is at most one). -/
abbrev MediaRec := List (String × JVal)

/-- Python `d[k]` / `d.get(k)` lookup on the association list. -/
def dictGet (k : String) : MediaRec → Option JVal
  | [] => none
  | (k2, v) :: rest => if k2 = k then some v else dictGet k rest

/-! ## Deezer pagination (`get_deezer_artist_ids.py`) -/

/-- The parsed body of one Deezer page: `data` is the list of artist IDs
(the `artist["id"]` values) and `next` is the truthiness of
`data.get("next")` (absent / empty / falsy continuation field ↦ `false`). -/
structure DeezerPage where
  data : List Nat
  next : Bool
deriving DecidableEq

/-- The outcome of one HTTP request in the pagination loop: either a
response with a status code and a parsed body, or a
`requests.exceptions.RequestException` (timeout, connection failure) with
its class name (`e.__class__.__name__`, e.g. `ConnectTimeout`) and its
message (`str(e)`). -/
inductive DeezerResp where
  | http (status : Nat) (body : DeezerPage)
  | netErr (cls msg : String)
deriving DecidableEq

/-- Result of `get_favorite_artists`: a returned ID list, a raised
`ValueError` from the user-ID check, a propagated `RequestException`
(carrying its class name and message), or fuel exhaustion (the loop did
not stop within the given fuel). -/
inductive FetchOutcome where
  | ok (ids : List Nat)
  | configError (msg : String)
  | requestError (cls msg : String)
  | outOfFuel
deriving DecidableEq

/-- The `while True` pagination loop of `get_favorite_artists`, embedded with
explicit fuel.  `server` maps a request offset (the `index` query parameter)
to the upstream's response.  The second component of the result is the list
of offsets actually requested, in order.

Mirrors the source: on a response with `not response.ok`
(`requests` defines `ok` as `status_code < 400`) the loop logs and `break`s,
after which the trailing `return artists` returns the accumulator collected
so far; on a successful page it extends the accumulator with the page's IDs,
returns it if the continuation field is falsy, and otherwise retries at
`offset + limit`; a `RequestException` is logged and re-raised. -/
def fetchLoop (server : Nat → DeezerResp) (limit : Nat) :
    Nat → Nat → List Nat → FetchOutcome × List Nat
  | 0, _, _ => (.outOfFuel, [])
  | fuel + 1, offset, artists =>
    match server offset with
    | .netErr cls msg => (.requestError cls msg, [offset])
    | .http status page =>
      if status < 400 then
        if page.next then
          let r := fetchLoop server limit fuel (offset + limit) (artists ++ page.data)
          (r.1, offset :: r.2)
        else (.ok (artists ++ page.data), [offset])
      else (.ok artists, [offset])

/-- Model of Python's `str.isnumeric` restricted to decimal digits (Deezer
user IDs are decimal; the wider Unicode-numeric categories are irrelevant
to every claim, which only distinguish numeric from non-numeric values). -/
def str_isnumeric (s : String) : Bool :=
  (s != "") && s.data.all (fun c => c.isDigit)

/-- `check_deezer_user_id`: raises `ValueError` when the environment value is
falsy (unset or empty) or not numeric, otherwise returns it. -/
def check_deezer_user_id (envUserId : Option String) : Except String String :=
  let deezer_user_id := envUserId.getD ""
  if deezer_user_id = "" then .error "DEEZER_USER_ID in .env file is required."
  else if str_isnumeric deezer_user_id = false then .error "DEEZER_USER_ID must be numeric."
  else .ok deezer_user_id

/-- `get_favorite_artists`: validates the user ID first (a failed check
raises before any request is issued, hence the empty offset list), then runs
the pagination loop with the hard-coded page size `limit = 25`. -/
def get_favorite_artists (envUserId : Option String) (server : Nat → DeezerResp)
    (fuel : Nat) : FetchOutcome × List Nat :=
  match check_deezer_user_id envUserId with
  | .error msg => (.configError msg, [])
  | .ok _userId => fetchLoop server 25 fuel 0 []

/-- A fake upstream serving the fixed collection `items` in pages of size
`P`: the page at `offset` holds `items[offset : offset+P]` and carries a
continuation field exactly when further items remain. -/
def mkServer (items : List Nat) (P : Nat) : Nat → DeezerResp := fun offset =>
  .http 200 { data := (items.drop offset).take P
              next := decide (offset + P < items.length) }

/-- `output_to_csv` writes one row per artist ID and nothing else — in
particular no header row. -/
def output_to_csv (data : List Nat) : List (List JVal) :=
  data.map (fun artist => [JVal.int (Int.ofNat artist)])

def DEFAULT_OUTPUT_FILE : String := "deezer_artist_ids.csv"

/-- `check_output_file`: a falsy `OUTPUT_FILE` environment value falls back
to the default file name. -/
def check_output_file (envOutputFile : Option String) : String :=
  let output_file := envOutputFile.getD ""
  if output_file = "" then DEFAULT_OUTPUT_FILE else output_file

/-- Observable result of one run of the Deezer script's `main`:
the messages printed/logged, the CSV file content if one was written, and
the message of an uncaught exception (`ValueError` is not caught by `main`)
if the run crashed. -/
structure DeezerRun where
  msgs : List String
  written : Option (List (List JVal))
  crash : Option String
deriving DecidableEq

/-- `main` of the Deezer script: resolve the output file, fetch, and either
log a caught error, print the no-items message, or write the CSV.  A caught
`RequestException` is logged as
`logging.error("%s: %s", e.__class__.__name__, e)`, i.e. the exception's
class name, a colon-space, and its message; the success message quotes the
output file name in single quotes, as the source's f-string does. -/
def deezer_main (envUserId envOutputFile : Option String)
    (server : Nat → DeezerResp) (fuel : Nat) : DeezerRun :=
  let output_file := check_output_file envOutputFile
  match get_favorite_artists envUserId server fuel with
  | (.configError msg, _) => ⟨[], none, some msg⟩
  | (.requestError cls msg, _) => ⟨[cls ++ ": " ++ msg], none, none⟩
  | (.outOfFuel, _) => ⟨[], none, none⟩
  | (.ok artists, _) =>
    if artists.isEmpty then ⟨["No artist IDs retrieved. Exiting..."], none, none⟩
    else ⟨[toString artists.length ++ " Deezer artist IDs saved to '" ++ output_file ++ "'"],
          some (output_to_csv artists), none⟩

/-! ## Radarr / Sonarr single-request fetchers -/

/-- The outcome of the single HTTP GET issued by `get_movie_list` /
`get_show_list`: a response with a status code and a parsed JSON body, or a
`requests.exceptions.RequestException`. -/
inductive MediaResp where
  | http (status : Nat) (body : List MediaRec)
  | netErr (msg : String)
deriving DecidableEq

/-- `get_movie_list`: `raise_for_status` raises `HTTPError` (a
`RequestException`) for 4xx/5xx statuses; the `except` clause catches every
`RequestException` — network failure or bad status — prints the error and
returns the empty list. -/
def get_movie_list (resp : MediaResp) : List MediaRec :=
  match resp with
  | .netErr _ => []
  | .http status body => if status < 400 then body else []

/-- `get_show_list` (`get_tvshows.py`): identical logic to `get_movie_list`. -/
def get_show_list (resp : MediaResp) : List MediaRec :=
  match resp with
  | .netErr _ => []
  | .http status body => if status < 400 then body else []

/-! ## CSV writers (movies / TV shows)

Python's `sorted` is a stable sort; `sorted(movies, key=lambda x: x["title"])`
is embedded as a stable insertion sort over the extracted title keys.  The
fold inserts each element, in input order, after all elements already placed
whose key is not greater, which is exactly stability. -/

/-- Python's `<` on strings: lexicographic comparison of the code points,
in Boolean form. -/
def charsLtB : List Char → List Char → Bool
  | [], [] => false
  | [], _ :: _ => true
  | _ :: _, [] => false
  | c :: cs, d :: ds =>
    if c.toNat < d.toNat then true
    else if d.toNat < c.toNat then false
    else charsLtB cs ds

/-- Python's `a < b` on strings. -/
def strLtB (a b : String) : Bool := charsLtB a.data b.data

/-- Insert `x` into `l`, placing it before the first element with a strictly
greater key; equal keys are passed over, so later-inserted elements land
after earlier ones with the same key. -/
def insertS {α : Type} (key : α → String) (x : α) : List α → List α
  | [] => [x]
  | y :: ys => if strLtB (key x) (key y) then x :: y :: ys else y :: insertS key x ys

/-- Model of Python's stable `sorted(l, key=key)` for string keys. -/
def pySorted {α : Type} (key : α → String) (l : List α) : List α :=
  l.foldl (fun acc x => insertS key x acc) []

/-- The sort key used by both CSV writers: the string value of the record's
`"title"` field (the writers are only invoked on records whose title is
present and a string; the `""` default is never reached there). -/
def getTitleStr (m : MediaRec) : String :=
  match dictGet "title" m with
  | some (.str s) => s
  | _ => ""

/-- The fixed CSV header row `["Title", "Year", <ID column label>]`. -/
def csvHeader (idLabel : String) : List JVal :=
  [JVal.str "Title", JVal.str "Year", JVal.str idLabel]

/-- One CSV data row `[movie["title"], movie["year"], movie[idKey]]`; a
missing key raises `KeyError` (the error value names the missing key, in the
order Python evaluates the subscripts). -/
def mediaRow (idKey : String) (m : MediaRec) : Except String (List JVal) :=
  match dictGet "title" m, dictGet "year" m, dictGet idKey m with
  | some t, some y, some i => .ok [t, y, i]
  | none, _, _ => .error "title"
  | some _, none, _ => .error "year"
  | some _, some _, none => .error idKey

/-- Write the data rows one by one; on the first `KeyError` the rows already
written stay in the file and the exception aborts the rest. -/
def writeRowsAux (idKey : String) : List MediaRec → List (List JVal) × Option String
  | [] => ([], none)
  | m :: ms =>
    match mediaRow idKey m with
    | .error k => ([], some k)
    | .ok r => (r :: (writeRowsAux idKey ms).1, (writeRowsAux idKey ms).2)

/-- The common body of `write_movies_to_csv` / `write_shows_to_csv` (the two
functions are line-for-line duplicates up to the ID column).  `open(.., "w")`
truncates the destination first; the header row is written before `sorted`
runs, so a `KeyError` while sorting (some record lacks `"title"`) leaves a
header-only file, and a `KeyError` in the row loop leaves the rows written so
far.  The result is the final file content paired with the raised key, if
any. -/
def write_media_to_csv (idLabel idKey : String) (items : List MediaRec) :
    List (List JVal) × Option String :=
  if items.all (fun m => (dictGet "title" m).isSome) then
    (csvHeader idLabel :: (writeRowsAux idKey (pySorted getTitleStr items)).1,
     (writeRowsAux idKey (pySorted getTitleStr items)).2)
  else (csvHeader idLabel :: [], some "title")

/-- `write_movies_to_csv`: header `["Title", "Year", "TMDB ID"]`, ID key
`"tmdbId"`. -/
def write_movies_to_csv : List MediaRec → List (List JVal) × Option String :=
  write_media_to_csv "TMDB ID" "tmdbId"

/-- `write_shows_to_csv`: header `["Title", "Year", "TVDB ID"]`, ID key
`"tvdbId"`. -/
def write_shows_to_csv : List MediaRec → List (List JVal) × Option String :=
  write_media_to_csv "TVDB ID" "tvdbId"

/-- Decidable form of "this record has everything the CSV writer reads":
a string `"title"`, a `"year"` and the external-ID key. -/
def hasCsvKeysB (idKey : String) (m : MediaRec) : Bool :=
  (match dictGet "title" m with | some (.str _) => true | _ => false) &&
  (dictGet "year" m).isSome && (dictGet idKey m).isSome

/-- The projection a successful CSV row applies to a record. -/
def rowProj (idKey : String) (m : MediaRec) : List JVal :=
  [(dictGet "title" m).getD .null, (dictGet "year" m).getD .null,
   (dictGet idKey m).getD .null]

/-- Decidable form of "every key the row writer subscripts is present"
(whatever the values' shapes): `"title"`, `"year"` and the ID key. -/
def hasRowKeysB (idKey : String) (m : MediaRec) : Bool :=
  (dictGet "title" m).isSome && (dictGet "year" m).isSome && (dictGet idKey m).isSome

/-! ## JSON export (`json.dump(..., indent=4)`) and re-parsing

`save_movies_to_file` / `save_shows_to_file` write the fetched records with
`json.dump(movies, file, indent=4)`.  The renderer below reproduces that
output character by character (4-space indent, `": "` key separator, `","`
item separator, `ensure_ascii=True` string escaping with lowercase `\uXXXX`
escapes and surrogate pairs for astral characters).  The parser below is a
whitespace-tolerant JSON reader for the same flat shape, modelling
`json.load` on the export file. -/

/-- JSON insignificant whitespace. -/
def isWs (c : Char) : Bool :=
  c = ' ' || c = '\n' || c = '\t' || c = '\r'

/-- Drop leading whitespace. -/
def skipWs : List Char → List Char
  | [] => []
  | c :: rest => if isWs c then skipWs rest else c :: rest

/-- Lowercase hexadecimal digit, as produced by Python's `"\u%04x"`. -/
def hexDigitChar (d : Nat) : Char :=
  if d < 10 then Char.ofNat (48 + d) else Char.ofNat (87 + d)

/-- Value of one hexadecimal digit (either case), if it is one. -/
def hexVal (c : Char) : Option Nat :=
  if 48 ≤ c.toNat ∧ c.toNat ≤ 57 then some (c.toNat - 48)
  else if 97 ≤ c.toNat ∧ c.toNat ≤ 102 then some (c.toNat - 87)
  else if 65 ≤ c.toNat ∧ c.toNat ≤ 70 then some (c.toNat - 55)
  else none

/-- Four-digit lowercase hex rendering of `n < 0x10000`. -/
def toHex4 (n : Nat) : List Char :=
  [hexDigitChar (n / 4096 % 16), hexDigitChar (n / 256 % 16),
   hexDigitChar (n / 16 % 16), hexDigitChar (n % 16)]

/-- Parse four hex digits. -/
def hex4 (a b c d : Char) : Option Nat := do
  let x ← hexVal a
  let y ← hexVal b
  let z ← hexVal c
  let w ← hexVal d
  pure (4096 * x + 256 * y + 16 * z + w)

/-- Escape one character the way Python's `ensure_ascii` encoder does:
short escapes for `\" \\ \b \f \n \r \t`, printable ASCII verbatim, `\uXXXX`
for every other BMP character, and a surrogate pair for astral characters. -/
def escapeChar (c : Char) : List Char :=
  if c = '\\' then ['\\', '\\']
  else if c = '"' then ['\\', '"']
  else if c = Char.ofNat 8 then ['\\', 'b']
  else if c = Char.ofNat 12 then ['\\', 'f']
  else if c = '\n' then ['\\', 'n']
  else if c = '\r' then ['\\', 'r']
  else if c = '\t' then ['\\', 't']
  else if 32 ≤ c.toNat ∧ c.toNat ≤ 126 then [c]
  else if c.toNat < 65536 then '\\' :: 'u' :: toHex4 c.toNat
  else
    '\\' :: 'u' :: toHex4 (55296 + (c.toNat - 65536) / 1024) ++
      '\\' :: 'u' :: toHex4 (56320 + (c.toNat - 65536) % 1024)

/-- Escape a character sequence. -/
def escapeList : List Char → List Char
  | [] => []
  | c :: rest => escapeChar c ++ escapeList rest

/-- The character denoted by a single-letter escape. -/
def simpleEscape (e : Char) : Option Char :=
  if e = '"' then some '"'
  else if e = '\\' then some '\\'
  else if e = '/' then some '/'
  else if e = 'b' then some (Char.ofNat 8)
  else if e = 'f' then some (Char.ofNat 12)
  else if e = 'n' then some '\n'
  else if e = 'r' then some '\r'
  else if e = 't' then some '\t'
  else none

/-- Read four hex digits from the front of the stream. -/
def parseHex4At (l : List Char) : Option (Nat × List Char) :=
  match l with
  | a :: b :: c :: d :: rest => (hex4 a b c d).map (fun n => (n, rest))
  | _ => none

/-- Read a `\\uXXXX` low-surrogate escape from the front of the stream. -/
def parseLowSurrogate (l : List Char) : Option (Nat × List Char) :=
  match l with
  | b1 :: b2 :: rest =>
    if b1 = '\\' ∧ b2 = 'u' then
      match parseHex4At rest with
      | some (m, rest2) => if 56320 ≤ m ∧ m < 57344 then some (m, rest2) else none
      | none => none
    else none
  | _ => none

/-- Parse the body of a JSON string (the opening quote already consumed) up
to the closing quote, decoding escapes; a high-surrogate escape must be
followed by a low one (a lone surrogate would denote no scalar value).  The
fuel is an embedding artifact bounding the number of decoded characters. -/
def parseStrBody (fuel : Nat) (l : List Char) : Option (List Char × List Char) :=
  match fuel with
  | 0 => none
  | fuel + 1 =>
    match l with
    | [] => none
    | c :: rest =>
      if c = '"' then some ([], rest)
      else if c = '\\' then
        match rest with
        | [] => none
        | e :: rest2 =>
          if e = 'u' then
            match parseHex4At rest2 with
            | none => none
            | some (n, rest3) =>
              if 55296 ≤ n ∧ n < 56320 then
                match parseLowSurrogate rest3 with
                | none => none
                | some (m, rest4) =>
                  (parseStrBody fuel rest4).map
                    (fun p => (Char.ofNat (65536 + (n - 55296) * 1024 + (m - 56320)) :: p.1, p.2))
              else if 56320 ≤ n ∧ n < 57344 then none
              else (parseStrBody fuel rest3).map (fun p => (Char.ofNat n :: p.1, p.2))
          else
            match simpleEscape e with
            | none => none
            | some c2 => (parseStrBody fuel rest2).map (fun p => (c2 :: p.1, p.2))
      else (parseStrBody fuel rest).map (fun p => (c :: p.1, p.2))

/-- A JSON string literal, quotes included. -/
def strLit (s : String) : List Char :=
  '"' :: (escapeList s.data ++ ['"'])

/-- Decimal digit character. -/
def digitChar (d : Nat) : Char := Char.ofNat (48 + d)

/-- Decimal rendering of a natural number, most significant digit first. -/
def natDigits (n : Nat) : List Char :=
  if _h : n < 10 then [digitChar n]
  else natDigits (n / 10) ++ [digitChar (n % 10)]
decreasing_by exact Nat.div_lt_self (by omega) (by omega)

/-- Consume a maximal run of decimal digits, folding them onto `acc`. -/
def parseDigitsAux : List Char → Nat → Nat × List Char
  | [], acc => (acc, [])
  | c :: rest, acc =>
    if c.isDigit then parseDigitsAux rest (10 * acc + (c.toNat - 48))
    else (acc, c :: rest)

/-- Parse an optionally negated decimal integer. -/
def parseNum (l : List Char) : Option (JVal × List Char) :=
  match l with
  | [] => none
  | c :: rest =>
    if c = '-' then
      match rest with
      | [] => none
      | d :: _ =>
        if d.isDigit then
          let p := parseDigitsAux rest 0
          some (.int (-(p.1 : Int)), p.2)
        else none
    else if c.isDigit then
      let p := parseDigitsAux (c :: rest) 0
      some (.int ((p.1 : Int)), p.2)
    else none

/-- Render one scalar exactly as Python's `json` module does. -/
def renderVal : JVal → List Char
  | .null => "null".data
  | .bool true => "true".data
  | .bool false => "false".data
  | .int n => if n < 0 then '-' :: natDigits n.natAbs else natDigits n.toNat
  | .str s => strLit s

/-- Parse one scalar value. -/
def parseVal (fuel : Nat) (l : List Char) : Option (JVal × List Char) :=
  match l with
  | [] => none
  | c :: rest =>
    if c = 'n' then
      match rest with
      | 'u' :: 'l' :: 'l' :: r => some (.null, r)
      | _ => none
    else if c = 't' then
      match rest with
      | 'r' :: 'u' :: 'e' :: r => some (.bool true, r)
      | _ => none
    else if c = 'f' then
      match rest with
      | 'a' :: 'l' :: 's' :: 'e' :: r => some (.bool false, r)
      | _ => none
    else if c = '"' then
      (parseStrBody fuel rest).map (fun p => (.str (String.mk p.1), p.2))
    else parseNum (c :: rest)

/-- Four spaces: one `indent=4` level. -/
def ind4 : List Char := [' ', ' ', ' ', ' ']

/-- Two indent levels — the depth of a key inside an item inside the array. -/
def ind8 : List Char := ind4 ++ ind4

/-- One `"key": value` line at item depth. -/
def renderField (f : String × JVal) : List Char :=
  ind8 ++ strLit f.1 ++ ':' :: ' ' :: renderVal f.2

/-- The remaining fields of an object, each on its own line, then the
closing brace on the item's indent level. -/
def renderFieldsTail : List (String × JVal) → List Char
  | [] => '\n' :: ind4 ++ ['\x7d']
  | f :: fs => ',' :: '\n' :: renderField f ++ renderFieldsTail fs

/-- One record object, pretty-printed at item depth. -/
def renderDict (m : MediaRec) : List Char :=
  match m with
  | [] => ['\x7b', '\x7d']
  | f :: fs => '\x7b' :: '\n' :: renderField f ++ renderFieldsTail fs

/-- One array item: indent then the object. -/
def renderItem (m : MediaRec) : List Char := ind4 ++ renderDict m

/-- The remaining array items, then the closing bracket in column 0. -/
def renderItemsTail : List MediaRec → List Char
  | [] => '\n' :: [']']
  | m :: ms => ',' :: '\n' :: renderItem m ++ renderItemsTail ms

/-- `json.dumps(items, indent=4)` for a list of flat records. -/
def renderExport (items : List MediaRec) : List Char :=
  match items with
  | [] => ['[', ']']
  | m :: ms => '[' :: '\n' :: renderItem m ++ renderItemsTail ms

/-- Parse the fields of a non-empty object, starting right after `{`
(or after a field separator), consuming the closing `}`. -/
def parseFields (fuel : Nat) (l : List Char) : Option (List (String × JVal) × List Char) :=
  match fuel with
  | 0 => none
  | fuel + 1 =>
    match skipWs l with
    | [] => none
    | c :: r =>
      if c = '"' then do
        let (k, r1) ← parseStrBody (fuel + 1) r
        match skipWs r1 with
        | [] => none
        | c2 :: r2 =>
          if c2 = ':' then do
            let (v, r3) ← parseVal (fuel + 1) (skipWs r2)
            match skipWs r3 with
            | [] => none
            | c3 :: r4 =>
              if c3 = ',' then
                (parseFields fuel r4).map (fun p => ((String.mk k, v) :: p.1, p.2))
              else if c3 = '\x7d' then some ([(String.mk k, v)], r4)
              else none
          else none
      else none

/-- Parse one record object. -/
def parseDict (fuel : Nat) (l : List Char) : Option (MediaRec × List Char) :=
  match skipWs l with
  | [] => none
  | c :: r =>
    if c = '\x7b' then
      match skipWs r with
      | [] => parseFields fuel r
      | c2 :: r2 => if c2 = '\x7d' then some ([], r2) else parseFields fuel r
    else none

/-- Parse the remaining array items after the first, consuming `]`. -/
def parseItemsTail (fuel : Nat) (l : List Char) : Option (List MediaRec × List Char) :=
  match fuel with
  | 0 => none
  | fuel + 1 =>
    match skipWs l with
    | [] => none
    | c :: r =>
      if c = ']' then some ([], r)
      else if c = ',' then do
        let (d, r1) ← parseDict fuel r
        (parseItemsTail fuel r1).map (fun p => (d :: p.1, p.2))
      else none

/-- Parse the items of an array, starting right after `[`. -/
def parseItems (fuel : Nat) (l : List Char) : Option (List MediaRec × List Char) :=
  match skipWs l with
  | [] => do
    let (d, r1) ← parseDict fuel l
    (parseItemsTail fuel r1).map (fun p => (d :: p.1, p.2))
  | c :: r =>
    if c = ']' then some ([], r)
    else do
      let (d, r1) ← parseDict fuel l
      (parseItemsTail fuel r1).map (fun p => (d :: p.1, p.2))

/-- `json.load` on an export file: a top-level array of flat records with
nothing but whitespace after it. -/
def parseExport (l : List Char) : Option (List MediaRec) :=
  match skipWs l with
  | [] => none
  | c :: r =>
    if c = '[' then
      match parseItems (l.length + 1) r with
      | some (items, rest) => if skipWs rest = [] then some items else none
      | none => none
    else none

/-- `save_movies_to_file`: the content `json.dump(movies, file, indent=4)`
writes (the whole file is overwritten). -/
def save_movies_to_file (movies : List MediaRec) : List Char :=
  renderExport movies

/-- `save_shows_to_file` (`get_tvshows.py`): identical to
`save_movies_to_file`. -/
def save_shows_to_file (shows : List MediaRec) : List Char :=
  renderExport shows

/-! ## `main` of the movie / TV-show scripts -/

/-- Python truthiness of an optional environment string. -/
def truthy : Option String → Bool
  | none => false
  | some s => s != ""

/-- Observable result of one run of the movie / TV-show script's `main`:
printed messages, the JSON file content if written, the CSV file content if
the file was opened (possibly partial), and the message of an uncaught
exception (`KeyError` from the CSV writer is not caught). -/
structure MediaRun where
  msgs : List String
  jsonFile : Option (List Char)
  csvFile : Option (List (List JVal))
  crash : Option String
deriving DecidableEq

/-- `main` of `get_movies.py`. -/
def movies_main (apiKey baseUrl : Option String) (resp : MediaResp) : MediaRun :=
  if truthy apiKey && truthy baseUrl then
    let movies := get_movie_list resp
    if movies.isEmpty then ⟨["No movies found"], none, none, none⟩
    else
      let json := save_movies_to_file movies
      let csv := write_movies_to_csv movies
      match csv.2 with
      | some k =>
        ⟨[toString movies.length ++ " movies exported to movie_list.json"],
         some json, some csv.1, some k⟩
      | none =>
        ⟨[toString movies.length ++ " movies exported to movie_list.json",
          toString movies.length ++ " movies exported to movie_list.csv"],
         some json, some csv.1, none⟩
  else ⟨["API key or base URL not found"], none, none, none⟩

/-- `main` of `get_tvshows.py`. -/
def tvshows_main (apiKey baseUrl : Option String) (resp : MediaResp) : MediaRun :=
  if truthy apiKey && truthy baseUrl then
    let shows := get_show_list resp
    if shows.isEmpty then ⟨["No TV shows found"], none, none, none⟩
    else
      let json := save_shows_to_file shows
      let csv := write_shows_to_csv shows
      match csv.2 with
      | some k =>
        ⟨[toString shows.length ++ " shows exported to show_list.json"],
         some json, some csv.1, some k⟩
      | none =>
        ⟨[toString shows.length ++ " shows exported to show_list.json",
          toString shows.length ++ " shows exported to show_list.csv"],
         some json, some csv.1, none⟩
  else ⟨["API key or base URL not found"], none, none, none⟩

/-! ## Remaining auxiliary definitions used by the theorems -/

/-- A response on which the pagination loop stops immediately: a raised
`RequestException`, a non-ok status, or a page with a falsy continuation
field. -/
def stopsB (r : DeezerResp) : Bool :=
  match r with
  | .netErr _ _ => true
  | .http status page => decide (400 ≤ status) || !page.next

/-- A concrete upstream whose first page is successful (three artist IDs,
continuation present) and whose second page answers HTTP 500. -/
def srvPartialErr : Nat → DeezerResp := fun offset =>
  if offset = 0 then .http 200 ⟨[10, 20, 30], true⟩ else .http 500 ⟨[], false⟩

/-- A concrete upstream whose first page is successful (two artist IDs,
continuation present) and whose second request times out. -/
def srvNetErrMid : Nat → DeezerResp := fun offset =>
  if offset = 0 then .http 200 ⟨[1, 2], true⟩
  else .netErr "ReadTimeout" "Read timed out."

/-- The character stream does not begin with a decimal digit (so a digit
run just before it cannot swallow anything from it). -/
def noDigitStart : List Char → Prop
  | [] => True
  | c :: _ => c.isDigit = false

/-- Characters a scalar's parse may consume from the string-body fuel. -/
def strSize : JVal → Nat
  | .str s => s.length
  | _ => 0

/-- Fuel needed to parse back a rendered record: one unit per field plus
the sizes of its key and value strings. -/
def measureFields (fs : List (String × JVal)) : Nat :=
  fs.foldr (fun f acc => f.1.length + strSize f.2 + 1 + acc) 0

/-- Fuel needed to parse back a rendered export: one unit per item plus the
items' field measures. -/
def measureItems (ms : List MediaRec) : Nat :=
  ms.foldr (fun m acc => measureFields m + 1 + acc) 0

/-- A concrete upstream whose very first page holds a full 25 items (the
page size) yet carries no continuation field. -/
def srvFullStop : Nat → DeezerResp := fun _ =>
  .http 200 ⟨List.range 25, false⟩

/-- A concrete upstream that answers success with an empty collection. -/
def srvEmpty : Nat → DeezerResp := fun _ =>
  .http 200 ⟨[], false⟩

/-! # Theorems

## Pagination against a faithful fake upstream -/

/-- Core pagination invariant: starting at any in-range offset, the loop
returns the accumulator followed by every remaining item, requesting exactly
the offsets `offset, offset + P, …`, one per remaining page. -/
theorem fetchLoop_mkServer (items : List Nat) (P : Nat) (hP : 0 < P) :
    ∀ fuel offset artists, offset < items.length →
      (items.length - offset + P - 1) / P ≤ fuel →
      fetchLoop (mkServer items P) P fuel offset artists =
        (.ok (artists ++ items.drop offset),
         (List.range ((items.length - offset + P - 1) / P)).map (fun i => offset + i * P)) := by
  intro fuel
  induction fuel with
  | zero =>
    intro offset artists hlt hle
    exfalso
    have h1 : 1 ≤ (items.length - offset + P - 1) / P :=
      (Nat.le_div_iff_mul_le hP).mpr (by omega)
    omega
  | succ fuel ih =>
    intro offset artists hlt hle
    rw [fetchLoop]
    simp only [mkServer]
    by_cases hnext : offset + P < items.length
    · have hd : items.length - offset + P - 1 = (items.length - (offset + P) + P - 1) + P := by
        omega
      have hle2 : (items.length - (offset + P) + P - 1) / P ≤ fuel := by
        rw [hd, Nat.add_div_right _ hP] at hle
        omega
      rw [ih (offset + P) (artists ++ (items.drop offset).take P) hnext hle2]
      have hdrop : (items.drop offset).take P ++ items.drop (offset + P) = items.drop offset := by
        have h2 : items.drop (offset + P) = (items.drop offset).drop P := by
          rw [List.drop_drop]
        rw [h2, List.take_append_drop]
      simp only [hnext, decide_True, if_pos (by omega : (200 : Nat) < 400), if_true,
        Prod.mk.injEq]
      constructor
      · rw [List.append_assoc, hdrop]
      · rw [hd, Nat.add_div_right _ hP, List.range_succ_eq_map, List.map_cons, List.map_map]
        simp only [Nat.zero_mul, Nat.add_zero, List.cons.injEq, true_and]
        congr 1
        funext i
        simp only [Function.comp_apply, Nat.succ_eq_add_one]
        ring
    · have hk : (items.length - offset + P - 1) / P = 1 := by
        have h2 : 1 * P ≤ items.length - offset + P - 1 := by omega
        have h3 : items.length - offset + P - 1 < (1 + 1) * P := by omega
        exact Nat.div_eq_of_lt_le h2 h3
      have htake : (items.drop offset).take P = items.drop offset := by
        apply List.take_of_length_le
        simp only [List.length_drop]
        omega
      simp only [hnext, decide_False, if_pos (by omega : (200 : Nat) < 400), if_false,
        hk, htake, Prod.mk.injEq, true_and]
      simp [List.range_succ]

/-- C1 (amended): for a non-empty upstream collection of `N` items served in
pages of size `P > 0` (continuation field on every page but the last), the
pagination loop returns exactly the `N` items in upstream order and requests
exactly the offsets `0, P, 2P, …`, `⌈N/P⌉` requests in all; instantiated at
the script's hard-coded page size 25 through `get_favorite_artists`. -/
theorem pagination_returns_all_items (items : List Nat) (P fuel : Nat) (uid : String)
    (hP : 0 < P) (hN : 0 < items.length)
    (hfuel : (items.length + P - 1) / P ≤ fuel)
    (huid : str_isnumeric uid = true) :
    fetchLoop (mkServer items P) P fuel 0 [] =
      (.ok items, (List.range ((items.length + P - 1) / P)).map (fun i => i * P)) ∧
    get_favorite_artists (some uid) (mkServer items 25) ((items.length + 25 - 1) / 25) =
      (.ok items, (List.range ((items.length + 25 - 1) / 25)).map (fun i => i * 25)) := by
  have huid2 : uid ≠ "" := by
    intro h
    rw [h] at huid
    simp [str_isnumeric] at huid
  constructor
  · have h := fetchLoop_mkServer items P hP fuel 0 [] hN (by simpa using hfuel)
    simpa using h
  · have hcheck : check_deezer_user_id (some uid) = .ok uid := by
      simp [check_deezer_user_id, huid2, huid]
    unfold get_favorite_artists
    rw [hcheck]
    have h := fetchLoop_mkServer items 25 (by omega) ((items.length + 25 - 1) / 25) 0 []
      hN (by simp)
    simpa using h

/-- C1 counterexample: for the empty collection (`N = 0`) the loop still
issues one request (offset 0), while the claim's `⌈N/P⌉` would be zero. -/
theorem pagination_empty_counterexample :
    (fetchLoop (mkServer ([] : List Nat) 25) 25 5 0 []).2.length = 1 ∧
    (([] : List Nat).length + 25 - 1) / 25 = 0 ∧
    fetchLoop (mkServer ([] : List Nat) 25) 25 5 0 [] = (.ok [], [0]) := by
  decide

/-- C1 witness: the spec's own example — page size 25, 30 artists — gives
two requests at offsets 0 and 25 and returns all 30 IDs in order. -/
theorem pagination_returns_all_items_witness :
    fetchLoop (mkServer (List.range 30) 25) 25 2 0 [] =
      (.ok (List.range 30), [0, 25]) ∧
    get_favorite_artists (some "12345") (mkServer (List.range 30) 25) 2 =
      (.ok (List.range 30), [0, 25]) := by
  have h := pagination_returns_all_items (List.range 30) 25 2 "12345"
    (by decide) (by simp) (by simp) (by decide)
  constructor
  · have h1 := h.1
    simp only [List.length_range] at h1
    rw [h1]
    decide
  · have h2 := h.2
    simp only [List.length_range] at h2
    rw [show (2 : Nat) = (30 + 25 - 1) / 25 from by decide, h2]
    decide

/-- Fuel is an artifact of the embedding: as soon as some reachable offset
answers with a stopping response (network error, non-ok status, or falsy
continuation), the loop's result is the same for every sufficient fuel and
is never `outOfFuel` — i.e. the `while True` loop terminates. -/
theorem fetchLoop_fuel_indep (server : Nat → DeezerResp) (limit : Nat) :
    ∀ j offset artists fuel1 fuel2, j < fuel1 → j < fuel2 →
      stopsB (server (offset + j * limit)) = true →
      fetchLoop server limit fuel1 offset artists = fetchLoop server limit fuel2 offset artists ∧
      (fetchLoop server limit fuel1 offset artists).1 ≠ .outOfFuel := by
  intro j
  induction j with
  | zero =>
    intro offset artists fuel1 fuel2 h1 h2 hs
    obtain ⟨f1, rfl⟩ : ∃ f, fuel1 = f + 1 := ⟨fuel1 - 1, by omega⟩
    obtain ⟨f2, rfl⟩ : ∃ f, fuel2 = f + 1 := ⟨fuel2 - 1, by omega⟩
    simp only [Nat.zero_mul, Nat.add_zero] at hs
    simp only [fetchLoop]
    cases hsrv : server offset with
    | netErr c m => simp
    | http status page =>
      rw [hsrv] at hs
      simp only [stopsB, Bool.or_eq_true, decide_eq_true_eq, Bool.not_eq_true'] at hs
      by_cases hst : status < 400
      · have hnext : page.next = false := by
          rcases hs with hs | hs
          · omega
          · exact hs
        simp [hst, hnext]
      · simp [hst]
  | succ j ih =>
    intro offset artists fuel1 fuel2 h1 h2 hs
    obtain ⟨f1, rfl⟩ : ∃ f, fuel1 = f + 1 := ⟨fuel1 - 1, by omega⟩
    obtain ⟨f2, rfl⟩ : ∃ f, fuel2 = f + 1 := ⟨fuel2 - 1, by omega⟩
    simp only [fetchLoop]
    cases hsrv : server offset with
    | netErr c m => simp
    | http status page =>
      by_cases hst : status < 400
      · by_cases hnext : page.next = true
        · have hs2 : stopsB (server (offset + limit + j * limit)) = true := by
            rw [show offset + limit + j * limit = offset + (j + 1) * limit from by ring]
            exact hs
          have hrec := ih (offset + limit) (artists ++ page.data) f1 f2
            (by omega) (by omega) hs2
          simp only [hst, hnext, if_true, if_pos hst]
          rw [hrec.1]
          refine ⟨rfl, ?_⟩
          simpa using hrec.1 ▸ hrec.2
        · simp [hst, hnext]
      · simp [hst]

/-- C4: the loop returns the extended accumulator the moment a successful
page has a falsy continuation field — whatever the number of items in that
page, in particular when it equals the page size — and, whenever some
reachable page stops the pagination, the result is independent of the fuel
bound and never the divergence marker: the fetch is total. -/
theorem pagination_stop_and_termination :
    (∀ (server : Nat → DeezerResp) (limit fuel offset : Nat) (artists : List Nat)
       (status : Nat) (page : DeezerPage),
       server offset = .http status page → status < 400 → page.next = false →
       fetchLoop server limit (fuel + 1) offset artists =
         (.ok (artists ++ page.data), [offset])) ∧
    (∀ (server : Nat → DeezerResp) (limit j offset : Nat) (artists : List Nat)
       (fuel1 fuel2 : Nat),
       j < fuel1 → j < fuel2 → stopsB (server (offset + j * limit)) = true →
       fetchLoop server limit fuel1 offset artists =
         fetchLoop server limit fuel2 offset artists ∧
       (fetchLoop server limit fuel1 offset artists).1 ≠ .outOfFuel) := by
  constructor
  · intro server limit fuel offset artists status page hsrv hst hnext
    simp only [fetchLoop]
    rw [hsrv]
    simp [hst, hnext]
  · intro server limit j offset artists f1 f2 h1 h2 hs
    exact fetchLoop_fuel_indep server limit j offset artists f1 f2 h1 h2 hs

/-- C4 witness: a first page with exactly 25 items (the page size) and no
continuation field returns immediately after one request, and the result is
the same under any larger fuel. -/
theorem pagination_stop_and_termination_witness :
    fetchLoop srvFullStop 25 1 0 [] = (.ok (List.range 25), [0]) ∧
    fetchLoop srvFullStop 25 9 0 [] = fetchLoop srvFullStop 25 1 0 [] := by
  constructor
  · have h := pagination_stop_and_termination.1 srvFullStop 25 0 0 [] 200
      ⟨List.range 25, false⟩ rfl (by omega) rfl
    simpa using h
  · exact (pagination_stop_and_termination.2 srvFullStop 25 0 0 [] 9 1
      (by omega) (by omega) (by decide)).1

/-! ## Error handling of the Deezer fetch -/

/-- Advancing the pagination loop over a prefix of `k` successful pages
(ok status, truthy continuation): the loop behaves as if started at offset
`offset + k·limit` with the accumulator extended by the prefix's items, the
`k` prefix offsets recorded in order before the remaining ones.  Quantifying
over the loop state (`offset`, `artists`) makes the lemma apply anywhere in
a run, not only at its start. -/
theorem fetchLoop_advance (server : Nat → DeezerResp) (limit : Nat) :
    ∀ (k : Nat) (sts : Nat → Nat) (pages : Nat → DeezerPage) (offset : Nat)
      (artists : List Nat) (fuel : Nat),
      (∀ j, j < k → server (offset + j * limit) = .http (sts j) (pages j) ∧
         sts j < 400 ∧ (pages j).next = true) →
      fetchLoop server limit (k + fuel) offset artists =
        ((fetchLoop server limit fuel (offset + k * limit)
            (artists ++ ((List.range k).map (fun j => (pages j).data)).flatten)).1,
         (List.range k).map (fun j => offset + j * limit) ++
           (fetchLoop server limit fuel (offset + k * limit)
              (artists ++ ((List.range k).map (fun j => (pages j).data)).flatten)).2) := by
  intro k
  induction k with
  | zero =>
    intro sts pages offset artists fuel _
    simp
  | succ k ih =>
    intro sts pages offset artists fuel hpre
    obtain ⟨h0, hst0, hnx0⟩ := hpre 0 (Nat.succ_pos k)
    rw [Nat.zero_mul, Nat.add_zero] at h0
    rw [show k + 1 + fuel = k + fuel + 1 from by omega, fetchLoop, h0]
    simp only [if_pos hst0, hnx0, if_true]
    have hpre2 : ∀ j, j < k →
        server (offset + limit + j * limit) = .http (sts (j + 1)) (pages (j + 1)) ∧
        sts (j + 1) < 400 ∧ (pages (j + 1)).next = true := by
      intro j hj
      have h := hpre (j + 1) (by omega)
      rwa [show offset + (j + 1) * limit = offset + limit + j * limit from by ring] at h
    rw [ih (fun j => sts (j + 1)) (fun j => pages (j + 1)) (offset + limit)
      (artists ++ (pages 0).data) fuel hpre2]
    try dsimp only
    have hacc : artists ++ (pages 0).data ++
        ((List.range k).map (fun j => (pages (j + 1)).data)).flatten =
        artists ++ ((List.range (k + 1)).map (fun j => (pages j).data)).flatten := by
      simp [List.range_succ_eq_map, Function.comp_def, List.append_assoc]
    have hmap : (List.range (k + 1)).map (fun j => offset + j * limit) =
        offset :: (List.range k).map (fun j => offset + limit + j * limit) := by
      rw [List.range_succ_eq_map, List.map_cons, List.map_map]
      congr 1
      · simp
      · exact List.map_congr_left fun a _ => by
          simp only [Function.comp_apply, Nat.succ_eq_add_one]
          ring
    rw [show offset + limit + k * limit = offset + (k + 1) * limit from by ring,
      hacc, hmap, List.cons_append]

/-- C2 counterexample: first page OK (three IDs, continuation set), second
page HTTP 500.  The fetch does **not** signal an error — it returns the
partial list — and `main` persists those three rows to the CSV file. -/
theorem http_error_partial_output_counterexample :
    get_favorite_artists (some "7") srvPartialErr 5 = (.ok [10, 20, 30], [0, 25]) ∧
    (deezer_main (some "7") none srvPartialErr 5).written =
      some [[JVal.int 10], [JVal.int 20], [JVal.int 30]] ∧
    (deezer_main (some "7") none srvPartialErr 5).crash = none := by
  decide

/-- C2 (amended): when any page request — at any position in the run, after
any number `k` of successful pages — answers a non-ok (≥ 400) status, the
loop logs the status and `break`s, after which `get_favorite_artists`
returns the items accumulated from the `k` earlier successful pages (having
requested offsets `0, 25, …, k·25`), and — when that partial list is
non-empty — `main` writes it to the CSV file; no `FetchError` reaches the
caller. -/
theorem http_error_returns_partial (server : Nat → DeezerResp) (uid : String)
    (envOut : Option String) (k : Nat) (sts : Nat → Nat) (pages : Nat → DeezerPage)
    (status : Nat) (pageK : DeezerPage) (fuel : Nat)
    (huid : str_isnumeric uid = true)
    (hpref : ∀ j, j < k → server (j * 25) = .http (sts j) (pages j) ∧
       sts j < 400 ∧ (pages j).next = true)
    (hfail : server (k * 25) = .http status pageK) (hstatus : 400 ≤ status) :
    get_favorite_artists (some uid) server (k + (fuel + 1)) =
      (.ok (((List.range k).map (fun j => (pages j).data)).flatten),
       (List.range (k + 1)).map (fun j => j * 25)) ∧
    (((List.range k).map (fun j => (pages j).data)).flatten ≠ [] →
      deezer_main (some uid) envOut server (k + (fuel + 1)) =
        ⟨[toString (((List.range k).map (fun j => (pages j).data)).flatten).length ++
            " Deezer artist IDs saved to '" ++ check_output_file envOut ++ "'"],
         some (output_to_csv (((List.range k).map (fun j => (pages j).data)).flatten)),
         none⟩) := by
  have huid2 : uid ≠ "" := by
    intro h
    rw [h] at huid
    simp [str_isnumeric] at huid
  have hcheck : check_deezer_user_id (some uid) = .ok uid := by
    simp [check_deezer_user_id, huid2, huid]
  have hpre0 : ∀ j, j < k → server (0 + j * 25) = .http (sts j) (pages j) ∧
      sts j < 400 ∧ (pages j).next = true := by
    intro j hj
    rw [Nat.zero_add]
    exact hpref j hj
  have hga : get_favorite_artists (some uid) server (k + (fuel + 1)) =
      (.ok (((List.range k).map (fun j => (pages j).data)).flatten),
       (List.range (k + 1)).map (fun j => j * 25)) := by
    unfold get_favorite_artists
    rw [hcheck]
    rw [fetchLoop_advance server 25 k sts pages 0 [] (fuel + 1) hpre0]
    rw [fetchLoop]
    simp only [Nat.zero_add, List.nil_append]
    rw [hfail]
    simp only [if_neg (by omega : ¬ status < 400)]
    simp [List.range_succ]
  refine ⟨hga, fun hne => ?_⟩
  have hemp : (((List.range k).map (fun j => (pages j).data)).flatten).isEmpty = false := by
    cases hd : ((List.range k).map (fun j => (pages j).data)).flatten with
    | nil => exact absurd hd hne
    | cons a l => rfl
  unfold deezer_main
  rw [hga]
  simp [hemp]

/-- C2 witness: the amended behaviour at a concrete upstream whose first
page succeeds with three IDs and whose second page answers HTTP 500. -/
theorem http_error_returns_partial_witness :
    deezer_main (some "7") none srvPartialErr 5 =
      ⟨["3 Deezer artist IDs saved to 'deezer_artist_ids.csv'"],
       some [[JVal.int 10], [JVal.int 20], [JVal.int 30]], none⟩ := by
  have h := http_error_returns_partial srvPartialErr "7" none 1 (fun _ => 200)
    (fun _ => ⟨[10, 20, 30], true⟩) 500 ⟨[], false⟩ 3 (by decide)
    (fun j hj => by
      have hj0 : j = 0 := by omega
      subst hj0
      exact ⟨rfl, by decide, rfl⟩)
    rfl (by omega)
  exact (h.2 (by decide)).trans (by decide)

/-- C3 counterexample: a network timeout in `get_movie_list` (and
`get_show_list`) is caught and turned into the empty list — exactly the
value a successful fetch of an empty library returns, so the call site
cannot tell the two apart. -/
theorem netfail_returns_empty_counterexample :
    get_movie_list (.netErr "ReadTimeout") = get_movie_list (.http 200 []) ∧
    get_movie_list (.netErr "ReadTimeout") = [] ∧
    get_show_list (.netErr "ConnectionError") = get_show_list (.http 200 []) := by
  exact ⟨rfl, rfl, rfl⟩

/-- C3 (amended): only the Deezer fetcher re-raises a `RequestException` to
its caller — wherever in the pagination it strikes, after any number `k` of
successful pages; the movie and TV-show fetchers catch it, print the error
and return `[]`, indistinguishable from a successful empty fetch. -/
theorem netfail_propagation_amended (cls msg mmsg : String)
    (envUserId : Option String) (uid : String) (server : Nat → DeezerResp)
    (k : Nat) (sts : Nat → Nat) (pages : Nat → DeezerPage) (fuel : Nat)
    (hcheck : check_deezer_user_id envUserId = .ok uid)
    (hpref : ∀ j, j < k → server (j * 25) = .http (sts j) (pages j) ∧
       sts j < 400 ∧ (pages j).next = true)
    (hfail : server (k * 25) = .netErr cls msg) :
    get_movie_list (.netErr mmsg) = [] ∧
    get_show_list (.netErr mmsg) = [] ∧
    get_favorite_artists envUserId server (k + (fuel + 1)) =
      (.requestError cls msg, (List.range (k + 1)).map (fun j => j * 25)) := by
  refine ⟨rfl, rfl, ?_⟩
  unfold get_favorite_artists
  rw [hcheck]
  have hpre0 : ∀ j, j < k → server (0 + j * 25) = .http (sts j) (pages j) ∧
      sts j < 400 ∧ (pages j).next = true := by
    intro j hj
    rw [Nat.zero_add]
    exact hpref j hj
  rw [fetchLoop_advance server 25 k sts pages 0 [] (fuel + 1) hpre0]
  rw [fetchLoop]
  simp only [Nat.zero_add]
  rw [hfail]
  simp [List.range_succ]

/-- C3 witness: the movie fetcher swallows a concrete timeout, while the
Deezer fetch propagates a timeout striking on the second page, after one
successful page. -/
theorem netfail_propagation_amended_witness :
    get_movie_list (.netErr "Read timed out.") = [] ∧
    get_favorite_artists (some "42") srvNetErrMid 5 =
      (.requestError "ReadTimeout" "Read timed out.", [0, 25]) := by
  have h := netfail_propagation_amended "ReadTimeout" "Read timed out."
    "Read timed out." (some "42") "42" srvNetErrMid 1 (fun _ => 200)
    (fun _ => ⟨[1, 2], true⟩) 3 rfl
    (fun j hj => by
      have hj0 : j = 0 := by omega
      subst hj0
      exact ⟨rfl, by decide, rfl⟩)
    rfl
  exact ⟨h.1, h.2.2.trans (by decide)⟩

/-- C7: `check_deezer_user_id` raises exactly when the environment value is
missing/empty or non-numeric, and a failed check makes
`get_favorite_artists` raise before a single offset is requested. -/
theorem config_error_before_network (env : Option String) (server : Nat → DeezerResp)
    (fuel : Nat) :
    ((∃ m, check_deezer_user_id env = .error m) ↔
       ¬ ∃ s, env = some s ∧ s ≠ "" ∧ str_isnumeric s = true) ∧
    (∀ m, check_deezer_user_id env = .error m →
       get_favorite_artists env server fuel = (.configError m, [])) := by
  constructor
  · cases env with
    | none => simp [check_deezer_user_id]
    | some s =>
      by_cases hs : s = ""
      · subst hs
        simp [check_deezer_user_id]
      · by_cases hn : str_isnumeric s = true
        · simp [check_deezer_user_id, hs, hn]
        · simp only [Bool.not_eq_true] at hn
          simp [check_deezer_user_id, hs, hn]
  · intro m hm
    unfold get_favorite_artists
    rw [hm]

/-- C7 witness: a non-numeric user ID raises the numeric `ValueError` and
no request is issued (empty offset list). -/
theorem config_error_before_network_witness :
    check_deezer_user_id (some "12a") = .error "DEEZER_USER_ID must be numeric." ∧
    get_favorite_artists (some "12a") srvFullStop 3 =
      (.configError "DEEZER_USER_ID must be numeric.", []) := by
  refine ⟨by rfl, ?_⟩
  exact (config_error_before_network (some "12a") srvFullStop 3).2 _ (by rfl)

/-- C8: when the fetch succeeds but the collection is empty, each of the
three `main`s prints its no-items message and exits without creating or
overwriting any output file. -/
theorem empty_fetch_no_output (apiKey baseUrl : Option String) (status : Nat)
    (envU envO : Option String) (server : Nat → DeezerResp) (fuel : Nat)
    (hk : truthy apiKey = true) (hu : truthy baseUrl = true) (hst : status < 400)
    (hdz : (get_favorite_artists envU server fuel).1 = .ok []) :
    movies_main apiKey baseUrl (.http status []) =
      ⟨["No movies found"], none, none, none⟩ ∧
    tvshows_main apiKey baseUrl (.http status []) =
      ⟨["No TV shows found"], none, none, none⟩ ∧
    deezer_main envU envO server fuel =
      ⟨["No artist IDs retrieved. Exiting..."], none, none⟩ := by
  refine ⟨?_, ?_, ?_⟩
  · unfold movies_main
    simp [hk, hu, get_movie_list, hst]
  · unfold tvshows_main
    simp [hk, hu, get_show_list, hst]
  · have hx : get_favorite_artists envU server fuel =
        (.ok [], (get_favorite_artists envU server fuel).2) := by
      rw [← hdz]
    unfold deezer_main
    rw [hx]
    simp

/-- C8 witness: a successful empty fetch at each of the three scripts. -/
theorem empty_fetch_no_output_witness :
    movies_main (some "key") (some "url") (.http 200 []) =
      ⟨["No movies found"], none, none, none⟩ ∧
    deezer_main (some "5") none srvEmpty 3 =
      ⟨["No artist IDs retrieved. Exiting..."], none, none⟩ := by
  have h := empty_fetch_no_output (some "key") (some "url") 200 (some "5") none
    srvEmpty 3 (by decide) (by decide) (by omega) (by decide)
  exact ⟨h.1, h.2.2⟩

/-! ## Stable sorting (`sorted(items, key=lambda x: x["title"])`) -/

/-- Lexicographic comparison is irreflexive. -/
theorem charsLtB_irrefl : ∀ l : List Char, charsLtB l l = false := by
  intro l
  induction l with
  | nil => rfl
  | cons c cs ih =>
    rw [charsLtB, if_neg (by omega), if_neg (by omega)]
    exact ih

/-- Lexicographic comparison is transitive. -/
theorem charsLtB_trans : ∀ a b c : List Char,
    charsLtB a b = true → charsLtB b c = true → charsLtB a c = true := by
  intro a
  induction a with
  | nil =>
    intro b c hab hbc
    cases b with
    | nil => simp [charsLtB] at hab
    | cons y ys =>
      cases c with
      | nil => simp [charsLtB] at hbc
      | cons z zs => rfl
  | cons x xs ih =>
    intro b c hab hbc
    cases b with
    | nil => simp [charsLtB] at hab
    | cons y ys =>
      cases c with
      | nil => simp [charsLtB] at hbc
      | cons z zs =>
        rw [charsLtB] at hab hbc ⊢
        by_cases hxy : x.toNat < y.toNat
        · by_cases hyz : y.toNat < z.toNat
          · rw [if_pos (by omega)]
          · rw [if_neg hyz] at hbc
            by_cases hzy : z.toNat < y.toNat
            · rw [if_pos hzy] at hbc
              exact absurd hbc (by simp)
            · rw [if_pos (by omega)]
        · rw [if_neg hxy] at hab
          by_cases hyx : y.toNat < x.toNat
          · rw [if_pos hyx] at hab
            exact absurd hab (by simp)
          · rw [if_neg hyx] at hab
            by_cases hyz : y.toNat < z.toNat
            · rw [if_pos (by omega)]
            · rw [if_neg hyz] at hbc
              by_cases hzy : z.toNat < y.toNat
              · rw [if_pos hzy] at hbc
                exact absurd hbc (by simp)
              · rw [if_neg hzy] at hbc
                rw [if_neg (by omega), if_neg (by omega)]
                exact ih ys zs hab hbc

/-- String comparison is irreflexive. -/
theorem strLtB_irrefl (s : String) : strLtB s s = false :=
  charsLtB_irrefl s.data

/-- String comparison is transitive. -/
theorem strLtB_trans (a b c : String) (hab : strLtB a b = true)
    (hbc : strLtB b c = true) : strLtB a c = true :=
  charsLtB_trans a.data b.data c.data hab hbc

/-- String comparison is asymmetric. -/
theorem strLtB_asymm (a b : String) (h : strLtB a b = true) : strLtB b a = false := by
  cases hb : strLtB b a with
  | false => rfl
  | true =>
    have h2 := strLtB_trans a b a h hb
    rw [strLtB_irrefl] at h2
    exact absurd h2 (by simp)

/-- Membership through one insertion. -/
theorem mem_insertS {α : Type} (key : α → String) (x a : α) :
    ∀ l : List α, a ∈ insertS key x l ↔ a = x ∨ a ∈ l := by
  intro l
  induction l with
  | nil => simp [insertS]
  | cons y ys ih =>
    rw [insertS]
    cases h : strLtB (key x) (key y) with
    | true =>
      rw [if_pos rfl]
      simp
    | false =>
      rw [if_neg Bool.false_ne_true]
      simp only [List.mem_cons, ih]
      tauto

/-- Length through one insertion. -/
theorem length_insertS {α : Type} (key : α → String) (x : α) :
    ∀ l : List α, (insertS key x l).length = l.length + 1 := by
  intro l
  induction l with
  | nil => rfl
  | cons y ys ih =>
    rw [insertS]
    cases h : strLtB (key x) (key y) with
    | true =>
      rw [if_pos rfl]
      simp
    | false =>
      rw [if_neg Bool.false_ne_true]
      simp [ih]

/-- Inserting preserves sortedness by the key. -/
theorem pairwise_insertS {α : Type} (key : α → String) (x : α) :
    ∀ l : List α, l.Pairwise (fun a b => strLtB (key b) (key a) = false) →
      (insertS key x l).Pairwise (fun a b => strLtB (key b) (key a) = false) := by
  intro l
  induction l with
  | nil =>
    intro _
    simp [insertS]
  | cons y ys ih =>
    intro h
    rw [List.pairwise_cons] at h
    rw [insertS]
    cases hxy : strLtB (key x) (key y) with
    | true =>
      rw [if_pos rfl, List.pairwise_cons]
      refine ⟨?_, List.pairwise_cons.mpr h⟩
      intro b hb
      rcases List.mem_cons.mp hb with rfl | hb2
      · exact strLtB_asymm (key x) (key b) hxy
      · cases hbx : strLtB (key b) (key x) with
        | false => rfl
        | true =>
          have h2 := strLtB_trans (key b) (key x) (key y) hbx hxy
          rw [h.1 b hb2] at h2
          exact absurd h2 (by simp)
    | false =>
      rw [if_neg Bool.false_ne_true, List.pairwise_cons]
      refine ⟨?_, ih h.2⟩
      intro b hb
      rcases (mem_insertS key x b ys).mp hb with rfl | hb2
      · exact hxy
      · exact h.1 b hb2

/-- Stability through one insertion into a sorted prefix: the elements with a
given key value keep their order, the new element landing after the old
ones. -/
theorem filter_insertS {α : Type} (key : α → String) (x : α) (t : String) :
    ∀ l : List α, l.Pairwise (fun a b => strLtB (key b) (key a) = false) →
      (insertS key x l).filter (fun a => decide (key a = t)) =
        (if key x = t
         then l.filter (fun a => decide (key a = t)) ++ [x]
         else l.filter (fun a => decide (key a = t))) := by
  intro l
  induction l with
  | nil =>
    intro _
    by_cases hx : key x = t
    · simp [insertS, hx]
    · simp [insertS, hx]
  | cons y ys ih =>
    intro h
    rw [List.pairwise_cons] at h
    rw [insertS]
    cases hxy : strLtB (key x) (key y) with
    | true =>
      rw [if_pos rfl]
      by_cases hx : key x = t
      · have hnil : (y :: ys).filter (fun a => decide (key a = t)) = [] := by
          rw [List.filter_eq_nil_iff]
          intro b hb
          simp only [decide_eq_true_eq]
          rcases List.mem_cons.mp hb with rfl | hb2
          · intro hbt
            rw [hx, ← hbt, strLtB_irrefl] at hxy
            exact absurd hxy (by simp)
          · intro hbt
            have h1 : strLtB (key b) (key y) = false := h.1 b hb2
            rw [hbt, ← hx, hxy] at h1
            exact absurd h1 (by simp)
        rw [if_pos hx, hnil]
        simp [List.filter_cons, hx, hnil]
      · rw [if_neg hx]
        simp [List.filter_cons, hx]
    | false =>
      rw [if_neg Bool.false_ne_true]
      rw [List.filter_cons, List.filter_cons]
      by_cases hy : key y = t
      · simp only [hy, decide_True, if_true]
        rw [ih h.2]
        by_cases hx : key x = t
        · simp [hx]
        · simp [hx]
      · simp only [hy, decide_False, if_false]
        rw [ih h.2]
        by_cases hx : key x = t
        · simp [hx]
        · simp [hx]

/-- The fold underlying `pySorted` keeps the accumulator sorted. -/
theorem pairwise_foldl_insertS {α : Type} (key : α → String) :
    ∀ (l acc : List α), acc.Pairwise (fun a b => strLtB (key b) (key a) = false) →
      (l.foldl (fun a x => insertS key x a) acc).Pairwise
        (fun a b => strLtB (key b) (key a) = false) := by
  intro l
  induction l with
  | nil => intro acc h; exact h
  | cons x xs ih =>
    intro acc h
    exact ih (insertS key x acc) (pairwise_insertS key x acc h)

/-- Stability of the fold: per key value, the output is the accumulator's
occurrences followed by the input's occurrences, in input order. -/
theorem filter_foldl_insertS {α : Type} (key : α → String) (t : String) :
    ∀ (l acc : List α), acc.Pairwise (fun a b => strLtB (key b) (key a) = false) →
      (l.foldl (fun a x => insertS key x a) acc).filter (fun a => decide (key a = t)) =
        acc.filter (fun a => decide (key a = t)) ++ l.filter (fun a => decide (key a = t)) := by
  intro l
  induction l with
  | nil =>
    intro acc _
    simp
  | cons x xs ih =>
    intro acc h
    rw [List.foldl_cons, ih (insertS key x acc) (pairwise_insertS key x acc h),
      filter_insertS key x t acc h, List.filter_cons]
    by_cases hx : key x = t
    · simp [hx]
    · simp [hx]

/-- Length of the fold. -/
theorem length_foldl_insertS {α : Type} (key : α → String) :
    ∀ (l acc : List α),
      (l.foldl (fun a x => insertS key x a) acc).length = acc.length + l.length := by
  intro l
  induction l with
  | nil => intro acc; simp
  | cons x xs ih =>
    intro acc
    rw [List.foldl_cons, ih, length_insertS]
    simp only [List.length_cons]
    omega

/-- Membership through the fold. -/
theorem mem_foldl_insertS {α : Type} (key : α → String) (a : α) :
    ∀ (l acc : List α),
      a ∈ l.foldl (fun a x => insertS key x a) acc ↔ a ∈ acc ∨ a ∈ l := by
  intro l
  induction l with
  | nil => intro acc; simp
  | cons x xs ih =>
    intro acc
    rw [List.foldl_cons, ih, mem_insertS]
    simp only [List.mem_cons]
    tauto

/-- `pySorted` is sorted by the key (non-strictly ascending). -/
theorem pairwise_pySorted {α : Type} (key : α → String) (l : List α) :
    (pySorted key l).Pairwise (fun a b => strLtB (key b) (key a) = false) :=
  pairwise_foldl_insertS key l [] (by simp)

/-- `pySorted` is stable: for every key value, the elements carrying it
appear in their original relative order. -/
theorem filter_pySorted {α : Type} (key : α → String) (t : String) (l : List α) :
    (pySorted key l).filter (fun a => decide (key a = t)) =
      l.filter (fun a => decide (key a = t)) := by
  have h := filter_foldl_insertS key t l [] (by simp)
  simpa [pySorted] using h

/-- `pySorted` preserves length. -/
theorem length_pySorted {α : Type} (key : α → String) (l : List α) :
    (pySorted key l).length = l.length := by
  have h := length_foldl_insertS key l []
  simpa [pySorted] using h

/-- `pySorted` preserves membership. -/
theorem mem_pySorted {α : Type} (key : α → String) (a : α) (l : List α) :
    a ∈ pySorted key l ↔ a ∈ l := by
  have h := mem_foldl_insertS key a l []
  simpa [pySorted] using h


/-! ## CSV writer lemmas -/

/-- A record whose title is a present string also passes the plain
presence check of all three subscripted keys, title included. -/
theorem hasCsvKeysB_hasRowKeysB (idKey : String) (m : MediaRec)
    (h : hasCsvKeysB idKey m = true) : hasRowKeysB idKey m = true := by
  unfold hasCsvKeysB at h
  unfold hasRowKeysB
  simp only [Bool.and_eq_true] at h ⊢
  refine ⟨⟨?_, h.1.2⟩, h.2⟩
  cases ht : dictGet "title" m with
  | none =>
    rw [ht] at h
    simp at h
  | some v => simp

/-- A record with a present string title passes the title presence check. -/
theorem title_isSome_of_hasCsvKeys (idKey : String) (m : MediaRec)
    (h : hasCsvKeysB idKey m = true) : (dictGet "title" m).isSome = true := by
  unfold hasCsvKeysB at h
  simp only [Bool.and_eq_true] at h
  cases ht : dictGet "title" m with
  | none =>
    rw [ht] at h
    simp at h
  | some v => simp

/-- With every subscripted key present, the row write succeeds and produces
the fixed projection. -/
theorem mediaRow_of_hasKeys (idKey : String) (m : MediaRec)
    (h : hasRowKeysB idKey m = true) :
    mediaRow idKey m = .ok (rowProj idKey m) := by
  unfold hasRowKeysB at h
  simp only [Bool.and_eq_true, Option.isSome_iff_exists] at h
  obtain ⟨⟨⟨t, ht⟩, y, hy⟩, i, hi⟩ := h
  unfold mediaRow rowProj
  rw [ht, hy, hi]
  rfl

/-- With some subscripted key missing, the row write raises a `KeyError`. -/
theorem mediaRow_err_of_missing (idKey : String) (m : MediaRec)
    (h : hasRowKeysB idKey m = false) : ∃ k, mediaRow idKey m = .error k := by
  unfold mediaRow
  cases ht : dictGet "title" m with
  | none => exact ⟨"title", rfl⟩
  | some t =>
    cases hy : dictGet "year" m with
    | none => exact ⟨"year", rfl⟩
    | some y =>
      cases hi : dictGet idKey m with
      | none => exact ⟨idKey, rfl⟩
      | some i =>
        exfalso
        unfold hasRowKeysB at h
        rw [ht, hy, hi] at h
        simp at h

/-- When every record has its keys, the row loop writes one projected row
per record and raises nothing. -/
theorem writeRowsAux_ok (idKey : String) :
    ∀ ms : List MediaRec, (∀ m ∈ ms, hasRowKeysB idKey m = true) →
      writeRowsAux idKey ms = (ms.map (rowProj idKey), none) := by
  intro ms
  induction ms with
  | nil => intro _; rfl
  | cons m ms ih =>
    intro h
    rw [writeRowsAux, mediaRow_of_hasKeys idKey m (h m (List.mem_cons_self m ms)),
      ih (fun x hx => h x (List.mem_cons_of_mem m hx))]
    rfl

/-- When some record lacks a key, the row loop raises and the rows written
are strictly fewer than the records. -/
theorem writeRowsAux_err (idKey : String) :
    ∀ ms : List MediaRec, (∃ m ∈ ms, hasRowKeysB idKey m = false) →
      (writeRowsAux idKey ms).2.isSome = true ∧
      (writeRowsAux idKey ms).1.length < ms.length := by
  intro ms
  induction ms with
  | nil =>
    intro h
    simp at h
  | cons m ms ih =>
    intro h
    rw [writeRowsAux]
    cases hmr : mediaRow idKey m with
    | error k => simp
    | ok r =>
      obtain ⟨w, hw, hwk⟩ := h
      rcases List.mem_cons.mp hw with rfl | hw2
      · obtain ⟨k, hk⟩ := mediaRow_err_of_missing idKey w hwk
        rw [hmr] at hk
        exact absurd hk (by simp)
      · have h2 := ih ⟨w, hw2, hwk⟩
        simp only [List.length_cons]
        exact ⟨h2.1, by omega⟩

/-- Successful CSV write: header then one projected row per record, in the
stable title order. -/
theorem write_media_ok (idLabel idKey : String) (items : List MediaRec)
    (h : ∀ m ∈ items, hasCsvKeysB idKey m = true) :
    write_media_to_csv idLabel idKey items =
      (csvHeader idLabel :: (pySorted getTitleStr items).map (rowProj idKey), none) := by
  unfold write_media_to_csv
  have hall : items.all (fun m => (dictGet "title" m).isSome) = true := by
    rw [List.all_eq_true]
    intro m hm
    exact title_isSome_of_hasCsvKeys idKey m (h m hm)
  rw [if_pos hall]
  have h2 : ∀ m ∈ pySorted getTitleStr items, hasRowKeysB idKey m = true := by
    intro m hm
    exact hasCsvKeysB_hasRowKeysB idKey m (h m ((mem_pySorted getTitleStr m items).mp hm))
  rw [writeRowsAux_ok idKey _ h2]

/-- Failing CSV write: the destination is truncated and rewritten with the
header and at most a strict prefix of the data rows, and a `KeyError`
escapes. -/
theorem write_media_err (idLabel idKey : String) (items : List MediaRec)
    (h : ∃ m ∈ items, hasRowKeysB idKey m = false) :
    (write_media_to_csv idLabel idKey items).2.isSome = true ∧
    (write_media_to_csv idLabel idKey items).1.length ≤ items.length ∧
    (write_media_to_csv idLabel idKey items).1.head? = some (csvHeader idLabel) := by
  unfold write_media_to_csv
  by_cases hall : items.all (fun m => (dictGet "title" m).isSome) = true
  · rw [if_pos hall]
    obtain ⟨w, hw, hwk⟩ := h
    have h2 : ∃ m ∈ pySorted getTitleStr items, hasRowKeysB idKey m = false :=
      ⟨w, (mem_pySorted getTitleStr w items).mpr hw, hwk⟩
    have h3 := writeRowsAux_err idKey (pySorted getTitleStr items) h2
    rw [length_pySorted] at h3
    refine ⟨h3.1, ?_, rfl⟩
    simp only [List.length_cons]
    omega
  · rw [if_neg hall]
    refine ⟨rfl, ?_, rfl⟩
    obtain ⟨w, hw, _⟩ := h
    have h4 : 0 < items.length := List.length_pos.mpr (by rintro rfl; simp at hw)
    simp only [List.length_cons, List.length_nil]
    omega

/-- C5 (amended): the movie and TV-show writers emit the fixed header row
then one row per item (row count = item count + 1); the artist writer emits
no header at all — exactly one single-cell row per artist ID. -/
theorem csv_header_and_row_counts (movies shows : List MediaRec) (ids : List Nat)
    (hm1 : movies ≠ []) (hm : ∀ m ∈ movies, hasCsvKeysB "tmdbId" m = true)
    (hs1 : shows ≠ []) (hs : ∀ m ∈ shows, hasCsvKeysB "tvdbId" m = true) :
    (write_movies_to_csv movies).1.length = movies.length + 1 ∧
    (write_movies_to_csv movies).1.head? = some (csvHeader "TMDB ID") ∧
    (write_shows_to_csv shows).1.length = shows.length + 1 ∧
    (write_shows_to_csv shows).1.head? = some (csvHeader "TVDB ID") ∧
    (output_to_csv ids).length = ids.length := by
  rw [show write_movies_to_csv movies = write_media_to_csv "TMDB ID" "tmdbId" movies from rfl,
    show write_shows_to_csv shows = write_media_to_csv "TVDB ID" "tvdbId" shows from rfl,
    write_media_ok "TMDB ID" "tmdbId" movies hm, write_media_ok "TVDB ID" "tvdbId" shows hs]
  refine ⟨?_, rfl, ?_, rfl, ?_⟩
  · simp [length_pySorted]
  · simp [length_pySorted]
  · rw [output_to_csv, List.length_map]

/-- C5 counterexample: the artist-variant writer emits no `[artistId]`
header — one artist produces one row, not two, and that row is the ID
itself. -/
theorem artist_csv_no_header_counterexample :
    output_to_csv [7] = [[JVal.int 7]] ∧
    (output_to_csv [7]).length ≠ 1 + 1 ∧
    [JVal.int 7] ≠ [JVal.str "artistId"] := by
  decide

/-- C5 witness: one-record inputs for both writers plus a two-ID artist
list. -/
theorem csv_header_and_row_counts_witness :
    (write_movies_to_csv [[("title", JVal.str "A"), ("year", JVal.int 2000),
        ("tmdbId", JVal.int 1)]]).1.length = 1 + 1 ∧
    (write_shows_to_csv [[("title", JVal.str "B"), ("year", JVal.int 1999),
        ("tvdbId", JVal.int 2)]]).1.head? = some (csvHeader "TVDB ID") ∧
    (output_to_csv [3, 4]).length = 2 := by
  have h := csv_header_and_row_counts
    [[("title", JVal.str "A"), ("year", JVal.int 2000), ("tmdbId", JVal.int 1)]]
    [[("title", JVal.str "B"), ("year", JVal.int 1999), ("tvdbId", JVal.int 2)]]
    [3, 4] (by decide) (by decide) (by decide) (by decide)
  exact ⟨h.1, h.2.2.2.1, h.2.2.2.2⟩

/-- C6: both CSV writers emit, after the header, the rows of the input in
stable ascending title order — sorted non-strictly by the title string, and,
for every title value, the records carrying it keep their original relative
order. -/
theorem csv_rows_sorted_stable (movies shows : List MediaRec)
    (hm : ∀ m ∈ movies, hasCsvKeysB "tmdbId" m = true)
    (hs : ∀ m ∈ shows, hasCsvKeysB "tvdbId" m = true) :
    ((write_movies_to_csv movies).1 =
       csvHeader "TMDB ID" :: (pySorted getTitleStr movies).map (rowProj "tmdbId") ∧
     (pySorted getTitleStr movies).Pairwise
       (fun a b => strLtB (getTitleStr b) (getTitleStr a) = false) ∧
     (∀ t, (pySorted getTitleStr movies).filter (fun m => decide (getTitleStr m = t)) =
        movies.filter (fun m => decide (getTitleStr m = t)))) ∧
    ((write_shows_to_csv shows).1 =
       csvHeader "TVDB ID" :: (pySorted getTitleStr shows).map (rowProj "tvdbId") ∧
     (pySorted getTitleStr shows).Pairwise
       (fun a b => strLtB (getTitleStr b) (getTitleStr a) = false) ∧
     (∀ t, (pySorted getTitleStr shows).filter (fun m => decide (getTitleStr m = t)) =
        shows.filter (fun m => decide (getTitleStr m = t)))) := by
  constructor
  · refine ⟨?_, pairwise_pySorted getTitleStr movies, fun t => filter_pySorted getTitleStr t movies⟩
    rw [show write_movies_to_csv movies = write_media_to_csv "TMDB ID" "tmdbId" movies from rfl,
      write_media_ok "TMDB ID" "tmdbId" movies hm]
  · refine ⟨?_, pairwise_pySorted getTitleStr shows, fun t => filter_pySorted getTitleStr t shows⟩
    rw [show write_shows_to_csv shows = write_media_to_csv "TVDB ID" "tvdbId" shows from rfl,
      write_media_ok "TVDB ID" "tvdbId" shows hs]

/-- C6 witness: a three-record input with a duplicate title; the duplicate
records keep their input order in the sorted output. -/
theorem csv_rows_sorted_stable_witness :
    (write_movies_to_csv
        [[("title", JVal.str "b"), ("year", JVal.int 1), ("tmdbId", JVal.int 11)],
         [("title", JVal.str "a"), ("year", JVal.int 2), ("tmdbId", JVal.int 22)],
         [("title", JVal.str "b"), ("year", JVal.int 3), ("tmdbId", JVal.int 33)]]).1 =
      [csvHeader "TMDB ID",
       [JVal.str "a", JVal.int 2, JVal.int 22],
       [JVal.str "b", JVal.int 1, JVal.int 11],
       [JVal.str "b", JVal.int 3, JVal.int 33]] ∧
    (pySorted getTitleStr
        [[("title", JVal.str "b"), ("year", JVal.int 1), ("tmdbId", JVal.int 11)],
         [("title", JVal.str "a"), ("year", JVal.int 2), ("tmdbId", JVal.int 22)],
         [("title", JVal.str "b"), ("year", JVal.int 3), ("tmdbId", JVal.int 33)]]).filter
      (fun m => decide (getTitleStr m = "b")) =
      [[("title", JVal.str "b"), ("year", JVal.int 1), ("tmdbId", JVal.int 11)],
       [("title", JVal.str "b"), ("year", JVal.int 3), ("tmdbId", JVal.int 33)]] := by
  have h := csv_rows_sorted_stable
    [[("title", JVal.str "b"), ("year", JVal.int 1), ("tmdbId", JVal.int 11)],
     [("title", JVal.str "a"), ("year", JVal.int 2), ("tmdbId", JVal.int 22)],
     [("title", JVal.str "b"), ("year", JVal.int 3), ("tmdbId", JVal.int 33)]]
    [] (by decide) (by simp)
  refine ⟨?_, ?_⟩
  · rw [h.1.1]
    decide
  · rw [h.1.2.2 "b"]
    decide

/-- C10: when some record lacks `title`, `year` or the external-ID key, the
CSV write raises a `KeyError` only after the destination file has been
truncated and the header (plus any earlier rows) written, so the final
content is a strict partial file, not the previous content (the writers
always overwrite: the output never depends on what the file held before). -/
theorem csv_missing_key_truncates (movies shows : List MediaRec)
    (hm : ∃ m ∈ movies, hasRowKeysB "tmdbId" m = false)
    (hs : ∃ m ∈ shows, hasRowKeysB "tvdbId" m = false) :
    ((write_movies_to_csv movies).2.isSome = true ∧
     (write_movies_to_csv movies).1.length ≤ movies.length ∧
     (write_movies_to_csv movies).1.head? = some (csvHeader "TMDB ID")) ∧
    ((write_shows_to_csv shows).2.isSome = true ∧
     (write_shows_to_csv shows).1.length ≤ shows.length ∧
     (write_shows_to_csv shows).1.head? = some (csvHeader "TVDB ID")) :=
  ⟨write_media_err "TMDB ID" "tmdbId" movies hm,
   write_media_err "TVDB ID" "tvdbId" shows hs⟩

/-- C10 witness: a movie missing its `tmdbId` and a show missing its
`title`; both writes leave a header-bearing partial file and raise. -/
theorem csv_missing_key_truncates_witness :
    (write_movies_to_csv [[("title", JVal.str "b"), ("year", JVal.int 1)]]).2.isSome = true ∧
    (write_shows_to_csv [[("year", JVal.int 1)]]).1.head? = some (csvHeader "TVDB ID") := by
  have h := csv_missing_key_truncates
    [[("title", JVal.str "b"), ("year", JVal.int 1)]]
    [[("year", JVal.int 1)]]
    ⟨[("title", JVal.str "b"), ("year", JVal.int 1)], by decide, by decide⟩
    ⟨[("year", JVal.int 1)], by decide, by decide⟩
  exact ⟨h.1.1, h.2.2.2⟩

/-! ## JSON round trip: auxiliary lemmas -/

theorem skipWs_cons_of_ws (c : Char) (l : List Char) (h : isWs c = true) :
    skipWs (c :: l) = skipWs l := by
  rw [skipWs, if_pos h]

theorem skipWs_cons_of_not_ws (c : Char) (l : List Char) (h : isWs c = false) :
    skipWs (c :: l) = c :: l := by
  rw [skipWs, if_neg (by simp [h])]

theorem skipWs_append_ws (pre : List Char) (h : ∀ c ∈ pre, isWs c = true) :
    ∀ l : List Char, skipWs (pre ++ l) = skipWs l := by
  induction pre with
  | nil => intro l; rfl
  | cons c cs ih =>
    intro l
    rw [List.cons_append, skipWs_cons_of_ws c _ (h c (List.mem_cons_self c cs))]
    exact ih (fun x hx => h x (List.mem_cons_of_mem c hx)) l

theorem skipWs_newline (l : List Char) : skipWs ('\n' :: l) = skipWs l :=
  skipWs_cons_of_ws _ _ (by decide)

theorem skipWs_ind4 (l : List Char) : skipWs (ind4 ++ l) = skipWs l :=
  skipWs_append_ws ind4 (by decide) l

theorem skipWs_ind8 (l : List Char) : skipWs (ind8 ++ l) = skipWs l :=
  skipWs_append_ws ind8 (by decide) l

theorem hexVal_hexDigitChar (d : Nat) (h : d < 16) :
    hexVal (hexDigitChar d) = some d := by
  interval_cases d <;> rfl

theorem hex4_toHex4 (n : Nat) (h : n < 65536) :
    hex4 (hexDigitChar (n / 4096 % 16)) (hexDigitChar (n / 256 % 16))
      (hexDigitChar (n / 16 % 16)) (hexDigitChar (n % 16)) = some n := by
  rw [hex4, hexVal_hexDigitChar _ (by omega), hexVal_hexDigitChar _ (by omega),
    hexVal_hexDigitChar _ (by omega), hexVal_hexDigitChar _ (by omega)]
  show some _ = some n
  congr 1
  omega

theorem digitChar_isDigit (d : Nat) (h : d < 10) : (digitChar d).isDigit = true := by
  interval_cases d <;> rfl

theorem digitChar_toNat (d : Nat) (h : d < 10) : (digitChar d).toNat = 48 + d := by
  interval_cases d <;> rfl

theorem natDigits_head_digit (n : Nat) :
    ∃ c t, natDigits n = c :: t ∧ c.isDigit = true := by
  induction n using Nat.strong_induction_on with
  | _ n ih =>
    rw [natDigits]
    by_cases h : n < 10
    · rw [dif_pos h]
      exact ⟨digitChar n, [], rfl, digitChar_isDigit n h⟩
    · rw [dif_neg h]
      obtain ⟨c, t, hct, hcd⟩ := ih (n / 10) (Nat.div_lt_self (by omega) (by omega))
      exact ⟨c, t ++ [digitChar (n % 10)], by rw [hct]; rfl, hcd⟩

theorem parseDigitsAux_stop (l : List Char) (acc : Nat) (h : noDigitStart l) :
    parseDigitsAux l acc = (acc, l) := by
  cases l with
  | nil => rfl
  | cons c rest =>
    rw [noDigitStart] at h
    rw [parseDigitsAux, if_neg (by simp [h])]

theorem parseDigitsAux_natDigits (n : Nat) :
    ∀ (rest : List Char) (acc : Nat),
      parseDigitsAux (natDigits n ++ rest) acc =
        parseDigitsAux rest (acc * 10 ^ (natDigits n).length + n) := by
  induction n using Nat.strong_induction_on with
  | _ n ih =>
    intro rest acc
    by_cases h : n < 10
    · rw [natDigits, dif_pos h, List.singleton_append, parseDigitsAux,
        if_pos (digitChar_isDigit n h), digitChar_toNat n h]
      congr 1
      simp only [List.length_cons, List.length_nil]
      omega
    · have hlen : (natDigits n).length = (natDigits (n / 10)).length + 1 := by
        conv_lhs => rw [natDigits, dif_neg h]
        rw [List.length_append, List.length_cons, List.length_nil]
      conv_lhs => rw [natDigits, dif_neg h]
      rw [List.append_assoc, ih (n / 10) (Nat.div_lt_self (by omega) (by omega)),
        List.singleton_append, parseDigitsAux,
        if_pos (digitChar_isDigit _ (by omega)), digitChar_toNat _ (by omega)]
      congr 1
      rw [hlen]
      have h2 : 10 * (n / 10) + n % 10 = n := by omega
      calc 10 * (acc * 10 ^ (natDigits (n / 10)).length + n / 10) + (48 + n % 10 - 48)
          = acc * (10 ^ (natDigits (n / 10)).length * 10) + (10 * (n / 10) + n % 10) := by
            rw [Nat.add_sub_cancel_left]
            ring
        _ = acc * 10 ^ ((natDigits (n / 10)).length + 1) + n := by rw [h2, pow_succ]

/-- The code-point bounds every valid character satisfies (no surrogates,
below the Unicode ceiling). -/
theorem char_toNat_valid (c : Char) :
    c.toNat < 55296 ∨ (57343 < c.toNat ∧ c.toNat < 1114112) := c.valid

/-- Reading four hex digits inverts `toHex4`. -/
theorem parseHex4At_toHex4 (n : Nat) (h : n < 65536) (rest : List Char) :
    parseHex4At (toHex4 n ++ rest) = some (n, rest) := by
  rw [toHex4]
  simp only [List.cons_append, List.nil_append]
  rw [parseHex4At, hex4_toHex4 n h]
  rfl

/-- Reading a low-surrogate escape inverts its rendering. -/
theorem parseLowSurrogate_render (m : Nat) (h1 : 56320 ≤ m) (h2 : m < 57344)
    (rest : List Char) :
    parseLowSurrogate ('\\' :: 'u' :: (toHex4 m ++ rest)) = some (m, rest) := by
  rw [parseLowSurrogate, if_pos ⟨rfl, rfl⟩, parseHex4At_toHex4 m (by omega) rest]
  simp [h1, h2]

/-- Decoding inverts the `ensure_ascii` encoding of one character, whatever
follows it in the stream. -/
theorem parseStrBody_escapeChar (c : Char) (fuel : Nat) (rest : List Char) :
    parseStrBody (fuel + 1) (escapeChar c ++ rest) =
      (parseStrBody fuel rest).map (fun p => (c :: p.1, p.2)) := by
  by_cases h1 : c = '\\'
  · subst h1
    rw [show escapeChar '\\' = ['\\', '\\'] from by decide]
    simp only [List.cons_append, List.nil_append]
    rw [parseStrBody]
    simp only [if_neg (show ¬('\\' : Char) = '"' from by decide), if_pos rfl,
      if_neg (show ¬('\\' : Char) = 'u' from by decide),
      show simpleEscape '\\' = some '\\' from by decide]
    simp
  by_cases h2 : c = '"'
  · subst h2
    rw [show escapeChar '"' = ['\\', '"'] from by decide]
    simp only [List.cons_append, List.nil_append]
    rw [parseStrBody]
    simp only [if_neg (show ¬('\\' : Char) = '"' from by decide), if_pos rfl,
      if_neg (show ¬('"' : Char) = 'u' from by decide),
      show simpleEscape '"' = some '"' from by decide]
    simp
  by_cases h3 : c = Char.ofNat 8
  · subst h3
    rw [show escapeChar (Char.ofNat 8) = ['\\', 'b'] from by decide]
    simp only [List.cons_append, List.nil_append]
    rw [parseStrBody]
    simp only [if_neg (show ¬('\\' : Char) = '"' from by decide), if_pos rfl,
      if_neg (show ¬('b' : Char) = 'u' from by decide),
      show simpleEscape 'b' = some (Char.ofNat 8) from by decide]
    simp
  by_cases h4 : c = Char.ofNat 12
  · subst h4
    rw [show escapeChar (Char.ofNat 12) = ['\\', 'f'] from by decide]
    simp only [List.cons_append, List.nil_append]
    rw [parseStrBody]
    simp only [if_neg (show ¬('\\' : Char) = '"' from by decide), if_pos rfl,
      if_neg (show ¬('f' : Char) = 'u' from by decide),
      show simpleEscape 'f' = some (Char.ofNat 12) from by decide]
    simp
  by_cases h5 : c = '\n'
  · subst h5
    rw [show escapeChar '\n' = ['\\', 'n'] from by decide]
    simp only [List.cons_append, List.nil_append]
    rw [parseStrBody]
    simp only [if_neg (show ¬('\\' : Char) = '"' from by decide), if_pos rfl,
      if_neg (show ¬('n' : Char) = 'u' from by decide),
      show simpleEscape 'n' = some '\n' from by decide]
    simp
  by_cases h6 : c = '\r'
  · subst h6
    rw [show escapeChar '\r' = ['\\', 'r'] from by decide]
    simp only [List.cons_append, List.nil_append]
    rw [parseStrBody]
    simp only [if_neg (show ¬('\\' : Char) = '"' from by decide), if_pos rfl,
      if_neg (show ¬('r' : Char) = 'u' from by decide),
      show simpleEscape 'r' = some '\r' from by decide]
    simp
  by_cases h7 : c = '\t'
  · subst h7
    rw [show escapeChar '\t' = ['\\', 't'] from by decide]
    simp only [List.cons_append, List.nil_append]
    rw [parseStrBody]
    simp only [if_neg (show ¬('\\' : Char) = '"' from by decide), if_pos rfl,
      if_neg (show ¬('t' : Char) = 'u' from by decide),
      show simpleEscape 't' = some '\t' from by decide]
    simp
  by_cases h8 : 32 ≤ c.toNat ∧ c.toNat ≤ 126
  · rw [escapeChar, if_neg h1, if_neg h2, if_neg h3, if_neg h4, if_neg h5, if_neg h6,
      if_neg h7, if_pos h8, List.singleton_append, parseStrBody.eq_def]
    dsimp only
    rw [if_neg h2, if_neg h1]
  by_cases h9 : c.toNat < 65536
  · have hv := char_toNat_valid c
    rw [escapeChar, if_neg h1, if_neg h2, if_neg h3, if_neg h4, if_neg h5, if_neg h6,
      if_neg h7, if_neg h8, if_pos h9, List.cons_append, List.cons_append,
      parseStrBody.eq_def]
    dsimp only
    rw [if_neg (show ¬('\\' : Char) = '"' from by decide),
      if_pos (rfl : ('\\' : Char) = '\\'), if_pos (rfl : ('u' : Char) = 'u'),
      parseHex4At_toHex4 c.toNat h9 rest]
    dsimp only
    rw [if_neg (show ¬(55296 ≤ c.toNat ∧ c.toNat < 56320) from by omega),
      if_neg (show ¬(56320 ≤ c.toNat ∧ c.toNat < 57344) from by omega),
      Char.ofNat_toNat]
  · have hv := char_toNat_valid c
    rw [escapeChar, if_neg h1, if_neg h2, if_neg h3, if_neg h4, if_neg h5, if_neg h6,
      if_neg h7, if_neg h8, if_neg h9]
    rw [show ('\\' :: 'u' :: toHex4 (55296 + (c.toNat - 65536) / 1024) ++
          '\\' :: 'u' :: toHex4 (56320 + (c.toNat - 65536) % 1024)) ++ rest =
        '\\' :: 'u' :: (toHex4 (55296 + (c.toNat - 65536) / 1024) ++
          ('\\' :: 'u' :: (toHex4 (56320 + (c.toNat - 65536) % 1024) ++ rest))) from by
      simp [List.cons_append, List.append_assoc]]
    rw [parseStrBody.eq_def]
    dsimp only
    rw [if_neg (show ¬('\\' : Char) = '"' from by decide),
      if_pos (rfl : ('\\' : Char) = '\\'), if_pos (rfl : ('u' : Char) = 'u'),
      parseHex4At_toHex4 (55296 + (c.toNat - 65536) / 1024) (by omega)]
    dsimp only
    rw [if_pos (show 55296 ≤ 55296 + (c.toNat - 65536) / 1024 ∧
          55296 + (c.toNat - 65536) / 1024 < 56320 from by omega),
      parseLowSurrogate_render (56320 + (c.toNat - 65536) % 1024) (by omega) (by omega) rest]
    dsimp only
    rw [show 65536 + (55296 + (c.toNat - 65536) / 1024 - 55296) * 1024 +
        (56320 + (c.toNat - 65536) % 1024 - 56320) = c.toNat from by omega,
      Char.ofNat_toNat]

/-- Decoding inverts the encoding of a whole string body up to the closing
quote. -/
theorem parseStrBody_escapeList (s : List Char) :
    ∀ (fuel : Nat) (rest : List Char), s.length < fuel →
      parseStrBody fuel (escapeList s ++ '"' :: rest) = some (s, rest) := by
  induction s with
  | nil =>
    intro fuel rest hfuel
    obtain ⟨g, rfl⟩ : ∃ g, fuel = g + 1 := ⟨fuel - 1, by omega⟩
    rw [escapeList, List.nil_append, parseStrBody.eq_def]
    dsimp only
    rw [if_pos rfl]
  | cons c cs ih =>
    intro fuel rest hfuel
    obtain ⟨g, rfl⟩ : ∃ g, fuel = g + 1 := ⟨fuel - 1, by omega⟩
    rw [escapeList, List.append_assoc, parseStrBody_escapeChar,
      ih g rest (by simpa using Nat.lt_of_succ_lt_succ hfuel)]
    rfl

/-- A decimal digit is none of the characters that dispatch `parseVal` /
`parseNum` elsewhere. -/
theorem digit_ne (d : Char) (hdd : d.isDigit = true) :
    ¬ d = 'n' ∧ ¬ d = 't' ∧ ¬ d = 'f' ∧ ¬ d = '"' ∧ ¬ d = '-' := by
  refine ⟨?_, ?_, ?_, ?_, ?_⟩ <;> (intro h; subst h; exact absurd hdd (by decide))

/-- Parsing inverts the rendering of one scalar value, provided what follows
does not begin with a digit (so that an integer's digit run stops). -/
theorem parseVal_renderVal (v : JVal) (fuel : Nat) (rest : List Char)
    (hf : strSize v < fuel) (hrest : noDigitStart rest) :
    parseVal fuel (renderVal v ++ rest) = some (v, rest) := by
  cases v with
  | null => rfl
  | bool b => cases b <;> rfl
  | str s =>
    rw [renderVal, strLit, List.cons_append, List.append_assoc, List.singleton_append,
      parseVal.eq_def]
    dsimp only
    rw [if_neg (by decide), if_neg (by decide), if_neg (by decide), if_pos rfl,
      parseStrBody_escapeList s.data fuel rest hf]
    rfl
  | int n =>
    rw [renderVal]
    by_cases hn : n < 0
    · rw [if_pos hn]
      obtain ⟨d, t, hdt, hdd⟩ := natDigits_head_digit n.natAbs
      rw [List.cons_append, parseVal.eq_def]
      dsimp only
      rw [if_neg (by decide), if_neg (by decide), if_neg (by decide), if_neg (by decide),
        parseNum.eq_def]
      dsimp only
      rw [if_pos rfl, hdt, List.cons_append]
      dsimp only
      rw [if_pos hdd, ← List.cons_append, ← hdt,
        parseDigitsAux_natDigits, parseDigitsAux_stop _ _ hrest]
      simp only [Nat.zero_mul, Nat.zero_add]
      have h2 : (-((n.natAbs : Nat) : Int)) = n := by omega
      rw [h2]
    · rw [if_neg hn]
      obtain ⟨d, t, hdt, hdd⟩ := natDigits_head_digit n.toNat
      obtain ⟨hn1, hn2, hn3, hn4, hn5⟩ := digit_ne d hdd
      rw [hdt, List.cons_append, parseVal.eq_def]
      dsimp only
      rw [if_neg hn1, if_neg hn2, if_neg hn3, if_neg hn4, parseNum.eq_def]
      dsimp only
      rw [if_neg hn5, if_pos hdd, ← List.cons_append, ← hdt,
        parseDigitsAux_natDigits, parseDigitsAux_stop _ _ hrest]
      simp only [Nat.zero_mul, Nat.zero_add]
      have h2 : ((n.toNat : Nat) : Int) = n := by omega
      rw [h2]

/-- Digits are not JSON whitespace. -/
theorem isWs_false_of_digit (d : Char) (h : d.isDigit = true) : isWs d = false := by
  rw [isWs]
  have h1 : ¬ d = ' ' := fun hh => by rw [hh] at h; exact absurd h (by decide)
  have h2 : ¬ d = '\n' := fun hh => by rw [hh] at h; exact absurd h (by decide)
  have h3 : ¬ d = '\t' := fun hh => by rw [hh] at h; exact absurd h (by decide)
  have h4 : ¬ d = '\r' := fun hh => by rw [hh] at h; exact absurd h (by decide)
  simp [h1, h2, h3, h4]

/-- A rendered scalar never begins with whitespace. -/
theorem skipWs_renderVal (v : JVal) (X : List Char) :
    skipWs (renderVal v ++ X) = renderVal v ++ X := by
  cases v with
  | null => exact skipWs_cons_of_not_ws _ _ (by decide)
  | bool b => cases b <;> exact skipWs_cons_of_not_ws _ _ (by decide)
  | str s =>
    rw [renderVal, strLit]
    simp only [List.cons_append]
    exact skipWs_cons_of_not_ws _ _ (by decide)
  | int n =>
    rw [renderVal]
    by_cases hn : n < 0
    · rw [if_pos hn]
      simp only [List.cons_append]
      exact skipWs_cons_of_not_ws _ _ (by decide)
    · rw [if_neg hn]
      obtain ⟨d, t, hdt, hdd⟩ := natDigits_head_digit n.toNat
      rw [hdt]
      simp only [List.cons_append]
      exact skipWs_cons_of_not_ws _ _ (isWs_false_of_digit d hdd)

/-- What follows a value inside a rendered object never starts with a
digit. -/
theorem noDigitStart_renderFieldsTail (fs : List (String × JVal)) (rest : List Char) :
    noDigitStart (renderFieldsTail fs ++ rest) := by
  cases fs with
  | nil =>
    rw [renderFieldsTail]
    simp only [List.cons_append]
    rw [noDigitStart]
    decide
  | cons f fs2 =>
    rw [renderFieldsTail]
    simp only [List.cons_append]
    rw [noDigitStart]
    decide

/-- Skipping whitespace over a field line lands on its opening quote. -/
theorem skipWs_field_stream (f : String × JVal) (X : List Char) :
    skipWs ('\n' :: (renderField f ++ X)) =
      '"' :: (escapeList f.1.data ++ ('"' :: (':' :: (' ' :: (renderVal f.2 ++ X))))) := by
  rw [skipWs_newline, renderField]
  simp only [List.append_assoc, List.cons_append]
  rw [skipWs_ind8, strLit]
  simp only [List.cons_append, List.append_assoc, List.singleton_append]
  exact skipWs_cons_of_not_ws _ _ (by decide)

/-- Parsing inverts the rendering of a non-empty field list, consuming the
closing brace. -/
theorem parseFields_render (fs : List (String × JVal)) :
    ∀ (f : String × JVal) (fuel : Nat) (rest : List Char),
      measureFields (f :: fs) ≤ fuel →
      parseFields fuel ('\n' :: (renderField f ++ (renderFieldsTail fs ++ rest))) =
        some (f :: fs, rest) := by
  induction fs with
  | nil =>
    intro f fuel rest hm
    rw [measureFields] at hm
    simp only [List.foldr_cons, List.foldr_nil] at hm
    obtain ⟨g, rfl⟩ : ∃ g, fuel = g + 1 := ⟨fuel - 1, by omega⟩
    rw [parseFields, skipWs_field_stream]
    try simp only [Option.bind_eq_bind, Option.some_bind]
    try dsimp only
    rw [if_pos (by trivial)]
    rw [parseStrBody_escapeList f.1.data (g + 1) _ (by
      have hl : f.1.length = f.1.data.length := rfl
      omega)]
    try simp only [Option.bind_eq_bind, Option.some_bind]
    try dsimp only
    rw [skipWs_cons_of_not_ws _ _ (by decide)]
    try simp only [Option.bind_eq_bind, Option.some_bind]
    try dsimp only
    rw [if_pos (by trivial)]
    rw [skipWs_cons_of_ws _ _ (by decide), skipWs_renderVal,
      parseVal_renderVal f.2 (g + 1) _ (by omega) (noDigitStart_renderFieldsTail [] rest)]
    try simp only [Option.bind_eq_bind, Option.some_bind]
    try dsimp only
    rw [renderFieldsTail]
    simp only [List.cons_append, List.append_assoc, List.singleton_append]
    rw [skipWs_newline, skipWs_ind4, skipWs_cons_of_not_ws _ _ (by decide)]
    try simp only [Option.bind_eq_bind, Option.some_bind]
    try dsimp only
    rw [if_neg (by decide), if_pos (by trivial)]
    rfl
  | cons f2 fs2 ih =>
    intro f fuel rest hm
    rw [measureFields] at hm
    simp only [List.foldr_cons] at hm
    obtain ⟨g, rfl⟩ : ∃ g, fuel = g + 1 := ⟨fuel - 1, by omega⟩
    rw [parseFields, skipWs_field_stream]
    try simp only [Option.bind_eq_bind, Option.some_bind]
    try dsimp only
    rw [if_pos (by trivial)]
    rw [parseStrBody_escapeList f.1.data (g + 1) _ (by
      have hl : f.1.length = f.1.data.length := rfl
      omega)]
    try simp only [Option.bind_eq_bind, Option.some_bind]
    try dsimp only
    rw [skipWs_cons_of_not_ws _ _ (by decide)]
    try simp only [Option.bind_eq_bind, Option.some_bind]
    try dsimp only
    rw [if_pos (by trivial)]
    rw [skipWs_cons_of_ws _ _ (by decide), skipWs_renderVal,
      parseVal_renderVal f.2 (g + 1) _ (by omega)
        (noDigitStart_renderFieldsTail (f2 :: fs2) rest)]
    try simp only [Option.bind_eq_bind, Option.some_bind]
    try dsimp only
    rw [renderFieldsTail]
    simp only [List.cons_append, List.append_assoc]
    rw [skipWs_cons_of_not_ws _ _ (by decide)]
    try simp only [Option.bind_eq_bind, Option.some_bind]
    try dsimp only
    rw [if_pos (by trivial)]
    rw [ih f2 g rest (by rw [measureFields]; simp only [List.foldr_cons]; omega)]
    rfl

/-- Parsing inverts the rendering of one record object, past any leading
whitespace. -/
theorem parseDict_render (m : MediaRec) (pre : List Char)
    (hpre : ∀ c ∈ pre, isWs c = true) (fuel : Nat) (rest : List Char)
    (hm : measureFields m < fuel) :
    parseDict fuel (pre ++ (renderDict m ++ rest)) = some (m, rest) := by
  rw [parseDict.eq_def, skipWs_append_ws pre hpre]
  cases m with
  | nil =>
    rw [renderDict]
    simp only [List.cons_append, List.nil_append]
    rw [skipWs_cons_of_not_ws _ _ (by decide)]
    try simp only [Option.bind_eq_bind, Option.some_bind]
    try dsimp only
    rw [if_pos (by trivial), skipWs_cons_of_not_ws _ _ (by decide)]
    try simp only [Option.bind_eq_bind, Option.some_bind]
    try dsimp only
    rw [if_pos (by trivial)]
  | cons f fs =>
    rw [renderDict]
    simp only [List.cons_append, List.append_assoc]
    rw [skipWs_cons_of_not_ws _ _ (by decide)]
    try simp only [Option.bind_eq_bind, Option.some_bind]
    try dsimp only
    rw [if_pos (by trivial), skipWs_field_stream]
    try simp only [Option.bind_eq_bind, Option.some_bind]
    try dsimp only
    rw [if_neg (by decide)]
    rw [parseFields_render fs f fuel rest (by omega)]

/-- Parsing inverts the rendering of the items after the first, consuming
the closing bracket. -/
theorem parseItemsTail_render (ms : List MediaRec) :
    ∀ (fuel : Nat) (rest : List Char), measureItems ms < fuel →
      parseItemsTail fuel (renderItemsTail ms ++ rest) = some (ms, rest) := by
  induction ms with
  | nil =>
    intro fuel rest hm
    obtain ⟨g, rfl⟩ : ∃ g, fuel = g + 1 := ⟨fuel - 1, by omega⟩
    rw [parseItemsTail, renderItemsTail]
    simp only [List.cons_append, List.singleton_append]
    rw [skipWs_newline, skipWs_cons_of_not_ws _ _ (by decide)]
    try simp only [Option.bind_eq_bind, Option.some_bind]
    try dsimp only
    rw [if_pos (by trivial)]
    rfl
  | cons m ms2 ih =>
    intro fuel rest hm
    rw [measureItems] at hm
    simp only [List.foldr_cons] at hm
    obtain ⟨g, rfl⟩ : ∃ g, fuel = g + 1 := ⟨fuel - 1, by omega⟩
    rw [parseItemsTail, renderItemsTail, renderItem]
    simp only [List.cons_append, List.append_assoc]
    rw [skipWs_cons_of_not_ws _ _ (by decide)]
    try simp only [Option.bind_eq_bind, Option.some_bind]
    try dsimp only
    rw [if_neg (by decide), if_pos (by trivial)]
    rw [show ('\n' :: (ind4 ++ (renderDict m ++ (renderItemsTail ms2 ++ rest)))) =
        ('\n' :: ind4) ++ (renderDict m ++ (renderItemsTail ms2 ++ rest)) from rfl]
    rw [parseDict_render m ('\n' :: ind4) (by decide) g _ (by omega)]
    try simp only [Option.bind_eq_bind, Option.some_bind]
    try dsimp only
    rw [ih g rest (by rw [measureItems]; omega)]
    rfl

/-- The escape of a character list is at least as long. -/
theorem length_escapeList (s : List Char) : s.length ≤ (escapeList s).length := by
  induction s with
  | nil => simp [escapeList]
  | cons c cs ih =>
    rw [escapeList, List.length_append]
    have h1 : 1 ≤ (escapeChar c).length := by
      rw [escapeChar]
      repeat' split
      all_goals simp
    simp only [List.length_cons]
    omega

/-- A rendered scalar is longer than its string-fuel need. -/
theorem strSize_lt_renderVal (v : JVal) : strSize v < (renderVal v).length := by
  cases v with
  | null => decide
  | bool b => cases b <;> decide
  | str s =>
    rw [strSize, renderVal, strLit]
    simp only [List.length_cons, List.length_append, List.length_singleton]
    have h1 := length_escapeList s.data
    have h2 : s.length = s.data.length := rfl
    omega
  | int n =>
    rw [show strSize (JVal.int n) = 0 from rfl, renderVal]
    by_cases hn : n < 0
    · rw [if_pos hn]
      simp
    · rw [if_neg hn]
      obtain ⟨d, t, hdt, _⟩ := natDigits_head_digit n.toNat
      rw [hdt]
      simp

/-- A rendered field line is longer than its measure contribution. -/
theorem measure_lt_renderField (f : String × JVal) :
    f.1.length + strSize f.2 + 1 < (renderField f).length := by
  rw [renderField, strLit]
  simp only [List.length_append, List.length_cons, List.length_singleton]
  have h1 := length_escapeList f.1.data
  have h2 : f.1.length = f.1.data.length := rfl
  have h3 := strSize_lt_renderVal f.2
  have h4 : ind8.length = 8 := rfl
  omega

/-- The remaining-fields rendering dominates the remaining measure. -/
theorem measure_le_renderFieldsTail (fs : List (String × JVal)) :
    measureFields fs ≤ (renderFieldsTail fs).length := by
  induction fs with
  | nil => decide
  | cons f fs2 ih =>
    rw [measureFields] at ih ⊢
    rw [renderFieldsTail]
    simp only [List.foldr_cons, List.length_cons, List.length_append]
    have h1 := measure_lt_renderField f
    omega

/-- A rendered object is longer than its field measure. -/
theorem measure_lt_renderDict (m : MediaRec) :
    measureFields m < (renderDict m).length := by
  cases m with
  | nil => decide
  | cons f fs =>
    rw [renderDict, measureFields]
    simp only [List.foldr_cons, List.length_cons, List.length_append]
    have h1 := measure_lt_renderField f
    have h2 := measure_le_renderFieldsTail fs
    rw [measureFields] at h2
    omega

/-- The remaining-items rendering dominates the remaining measure. -/
theorem measure_le_renderItemsTail (ms : List MediaRec) :
    measureItems ms ≤ (renderItemsTail ms).length := by
  induction ms with
  | nil => decide
  | cons m ms2 ih =>
    rw [measureItems] at ih ⊢
    rw [renderItemsTail, renderItem]
    simp only [List.foldr_cons, List.length_cons, List.length_append]
    have h1 := measure_lt_renderDict m
    omega

/-- The rendered export dominates the total measure. -/
theorem measure_le_renderExport (items : List MediaRec) :
    measureItems items ≤ (renderExport items).length := by
  cases items with
  | nil => decide
  | cons m ms =>
    rw [renderExport, renderItem, measureItems]
    simp only [List.foldr_cons, List.length_cons, List.length_append]
    have h1 := measure_lt_renderDict m
    have h2 := measure_le_renderItemsTail ms
    rw [measureItems] at h2
    omega

/-- Parsing the items stream of a rendered non-empty export recovers the
items exactly. -/
theorem parseItems_render (m : MediaRec) (ms : List MediaRec) (fuel : Nat)
    (hf : measureItems (m :: ms) < fuel) :
    parseItems fuel ('\n' :: (ind4 ++ (renderDict m ++ renderItemsTail ms))) =
      some (m :: ms, []) := by
  rw [measureItems] at hf
  simp only [List.foldr_cons] at hf
  rw [parseItems.eq_def, skipWs_newline, skipWs_ind4]
  obtain ⟨z, hz⟩ : ∃ z, skipWs (renderDict m ++ renderItemsTail ms) = '\x7b' :: z := by
    cases m with
    | nil =>
      rw [renderDict]
      simp only [List.cons_append, List.nil_append]
      exact ⟨_, skipWs_cons_of_not_ws _ _ (by decide)⟩
    | cons f fs =>
      rw [renderDict]
      simp only [List.cons_append, List.append_assoc]
      exact ⟨_, skipWs_cons_of_not_ws _ _ (by decide)⟩
  rw [hz]
  dsimp only
  rw [if_neg (by decide)]
  rw [show ('\n' :: (ind4 ++ (renderDict m ++ renderItemsTail ms))) =
      ('\n' :: ind4) ++ (renderDict m ++ renderItemsTail ms) from rfl]
  rw [parseDict_render m ('\n' :: ind4) (by decide) fuel (renderItemsTail ms) (by omega)]
  try simp only [Option.bind_eq_bind, Option.some_bind]
  try dsimp only
  have htail := parseItemsTail_render ms fuel [] (by rw [measureItems]; omega)
  rw [List.append_nil] at htail
  rw [htail]
  rfl

/-- Parsing the rendered export recovers the records exactly. -/
theorem parseExport_renderExport (items : List MediaRec) :
    parseExport (renderExport items) = some items := by
  cases items with
  | nil => rfl
  | cons m ms =>
    have hmeas := measure_le_renderExport (m :: ms)
    rw [parseExport, renderExport, renderItem]
    simp only [List.cons_append, List.append_assoc]
    rw [skipWs_cons_of_not_ws _ _ (by decide)]
    try simp only [Option.bind_eq_bind, Option.some_bind]
    try dsimp only
    rw [if_pos (by trivial)]
    have hlen : ('[' :: ('\n' :: (ind4 ++ (renderDict m ++ renderItemsTail ms)))).length =
        (renderExport (m :: ms)).length := by
      rw [renderExport, renderItem]
      simp [List.append_assoc]
    rw [parseItems_render m ms _ (by rw [hlen]; omega)]
    rfl

/-- C9: writing the fetched records with the JSON writer
(`json.dump(..., indent=4)`, `ensure_ascii` escaping included) and parsing
the written file back yields a collection equal item by item — in
particular by identifier — to the original list, for both the movie and the
TV-show exports. -/
theorem json_round_trip (items : List MediaRec) :
    parseExport (save_movies_to_file items) = some items ∧
    parseExport (save_shows_to_file items) = some items :=
  ⟨parseExport_renderExport items, parseExport_renderExport items⟩

end Scripts